import Mathlib

/-!
Verification development for the multi-agent provider runtime
(`packages/core/src/providers`): a shallow embedding of the agent manager,
provider factory, base provider client/session, tool registry and the two
streaming adapters, with theorems about the behaviours the specification
describes.

Modelling conventions:
* JavaScript strings are modelled as `List Char` (`Str`); `String.prototype.startsWith`
  is `List.isPrefixOf`.
* `Date.now()` / `Math.random()` (used only to mint unique identifiers) are
  modelled by a monotone counter threaded through the state; the only property
  of the real values the code relies on is freshness.
* Async calls are modelled by explicit outcome parameters (oracles); network
  activity is recorded in an explicit event trace.
* JavaScript truthiness on optional numbers/strings is modelled explicitly
  (`0`, `""` and `undefined` are falsy) and noted where it matters.
-/

namespace GeminiCli

/-- JS strings as lists of UTF-16-ish code points (chars suffice here). -/
abbrev Str := List Char

/-- Coerce a Lean string literal to the `Str` model. -/
def str (s : String) : Str := s.data

/-- Model of `a.startsWith(b)` for JS strings. -/
def strStartsWith (s pre : Str) : Bool := pre.isPrefixOf s

/-- Decimal digit to character (used to render the id counter). -/
def digitChar : Nat → Char
  | 0 => '0' | 1 => '1' | 2 => '2' | 3 => '3' | 4 => '4'
  | 5 => '5' | 6 => '6' | 7 => '7' | 8 => '8' | 9 => '9'
  | _ => '*'

/-- Inverse of `digitChar` on decimal digits. -/
def charDigit (c : Char) : Nat :=
  if c = '0' then 0 else if c = '1' then 1 else if c = '2' then 2
  else if c = '3' then 3 else if c = '4' then 4 else if c = '5' then 5
  else if c = '6' then 6 else if c = '7' then 7 else if c = '8' then 8
  else 9

/-- Decimal rendering with explicit fuel (structural, so that the kernel can
evaluate it); `natChars` supplies enough fuel for every input. -/
def natCharsAux : Nat → Nat → Str
  | 0, _ => []
  | fuel + 1, n =>
    if n < 10 then [digitChar n]
    else natCharsAux fuel (n / 10) ++ [digitChar (n % 10)]

/-- Decimal rendering of a natural number, most significant digit first. -/
def natChars (n : Nat) : Str := natCharsAux (n + 1) n

/-- Reads a digit string back into the number it denotes. -/
def charsVal (cs : Str) : Nat := cs.foldl (fun a c => 10 * a + charDigit c) 0

/-! ### Association-list model of the JavaScript `Map`

`aset` mirrors `Map.prototype.set` (update in place, else append),
`aget` mirrors `get`, `adel` mirrors `delete`; `size` is the list length. -/

/-- Model of `Map.prototype.get`. -/
def aget {α : Type} (m : List (Str × α)) (k : Str) : Option α :=
  match m with
  | [] => none
  | (k', v) :: t => if k' = k then some v else aget t k

/-- Model of `Map.prototype.set`. -/
def aset {α : Type} (m : List (Str × α)) (k : Str) (v : α) : List (Str × α) :=
  match m with
  | [] => [(k, v)]
  | (k', v') :: t => if k' = k then (k, v) :: t else (k', v') :: aset t k v

/-- Model of `Map.prototype.delete`. -/
def adel {α : Type} (m : List (Str × α)) (k : Str) : List (Str × α) :=
  match m with
  | [] => []
  | (k', v') :: t => if k' = k then t else (k', v') :: adel t k

/-! ### Core data model (`providers/types.ts`) -/

/-- Model of `enum AIProvider`. -/
inductive AIProvider
  | gemini
  | claude
  | ollama
  deriving DecidableEq, Repr

/-- The enum's string values. -/
def AIProvider.toStr : AIProvider → Str
  | .gemini => str "gemini"
  | .claude => str "claude"
  | .ollama => str "ollama"

/-- Model of `enum ProviderAuthType`. -/
inductive ProviderAuthType
  | oauthPersonal
  | geminiApiKey
  | vertexAi
  | cloudShell
  | claudeApiKey
  | ollamaLocal
  | ollamaRemote
  deriving DecidableEq, Repr

/-- Roles carried by `Content.role` in the code paths modelled here. -/
inductive Role
  | user
  | model
  deriving DecidableEq, Repr

/-- A `Part` from `@google/genai` as used by this repository: a text part,
an inline-data part, or an object with no keys (`isValidContent` checks
`Object.keys(part).length === 0`). -/
inductive Part
  | text (s : Str)
  | inlineData (mimeType data : Str)
  | emptyObj
  deriving DecidableEq, Repr

/-- A `Content` turn. `parts` is optional in the wire type
(`content.parts` may be `undefined`), hence the `Option`. -/
structure Content where
  role : Role
  parts : Option (List Part)
  deriving DecidableEq, Repr

/-- Model of `createUserContent(text)` from `@google/genai`: a user turn with one text part. -/
def createUserContent (s : Str) : Content := ⟨.user, some [.text s]⟩

/-! ### `BaseChatSession` (`core/chatSession.ts`)

Only the history-facing members are needed.  Note that the source's
`getHistory(curated: boolean = false)` returns `structuredClone(this.history)`
without ever consulting `curated`. -/

namespace BaseChatSession

/-- The history held by a `BaseChatSession`. -/
structure State where
  history : List Content
  deriving DecidableEq, Repr

/-- Model of `getHistory(curated)`: returns a clone of the history; the `curated`
parameter is accepted but not used by the implementation. -/
def getHistory (s : State) (curated : Bool) : List Content :=
  s.history

/-- Model of `setHistory(history)`. -/
def setHistory (s : State) (history : List Content) : State :=
  { s with history := history }

/-- Model of `clearHistory()`. -/
def clearHistory (s : State) : State :=
  { s with history := [] }

/-- Model of `addHistory(content)`: `this.history.push(content)`. -/
def addHistory (s : State) (content : Content) : State :=
  { s with history := s.history ++ [content] }

end BaseChatSession

/-! ### `BaseProviderSession` (`providers/base/BaseProviderSession.ts`) -/

namespace BaseProviderSession

/-- Model of `isValidContent(content)`: false when `parts` is missing or empty, when a
part is an object with no keys, or when a text part's text is `''`. -/
def isValidContent (content : Content) : Bool :=
  match content.parts with
  | none => false
  | some parts =>
    if parts.length = 0 then false
    else parts.all fun part =>
      match part with
      | .emptyObj => false
      | .text s => !s.isEmpty
      | .inlineData _ _ => true

/-- Model of `getCuratedHistory()`: keeps exactly the valid turns, in order. -/
def getCuratedHistory (history : List Content) : List Content :=
  history.filter isValidContent

/-- One step of the trimming loop body: remove a leading user+model pair,
otherwise remove the single oldest turn (`history.splice(0, 2)` /
`history.splice(0, 1)`). -/
def dropOldest (history : List Content) : List Content :=
  match history with
  | a :: b :: rest =>
    if a.role = Role.user ∧ b.role = Role.model then rest else b :: rest
  | _ :: rest => rest
  | [] => []

/-- The `while` loop of `trimHistoryToTokenLimit`: while more than two turns
remain and the token count (recomputed each iteration through the provider's
`countTokens`, modelled as the pure function `tok`) exceeds the limit,
drop the oldest turn(s). -/
def trimLoop (tok : List Content → Nat) (maxTokens : Nat) (history : List Content) :
    List Content :=
  if h : 2 < history.length ∧ maxTokens < tok history then
    trimLoop tok maxTokens (dropOldest history)
  else history
  termination_by history.length
  decreasing_by
    rcases h with ⟨h2, -⟩
    rcases history with - | ⟨a, - | ⟨b, rest⟩⟩
    · simp at h2
    · simp at h2
    · by_cases hp : a.role = Role.user ∧ b.role = Role.model <;>
        simp [dropOldest, hp] <;> omega

/-- Model of `trimHistoryToTokenLimit(maxTokens)`: early return when already within
budget, otherwise run the trimming loop. -/
def trimHistoryToTokenLimit (tok : List Content → Nat) (maxTokens : Nat)
    (history : List Content) : List Content :=
  if tok history ≤ maxTokens then history
  else trimLoop tok maxTokens history

/-! #### `wrapStreamWithHistoryUpdate`

The async generator is modelled as the list of `UnifiedResponse` values the
provider stream yields followed by how it terminates (normally or by
throwing).  The model returns, besides the final history and the propagated
error, the history snapshot observable at each `yield` point. -/

/-- How the provider stream terminates. -/
inductive StreamEnd (ε : Type)
  | done
  | error (e : ε)
  deriving Repr

/-- The portion of `UnifiedResponse` the session layer consumes. -/
structure UResp where
  content : List Content
  usageTotalTokens : Option Nat := none
  finishReason : Option Str := none
  deriving DecidableEq, Repr

/-- Result of draining the wrapped stream. -/
structure WrapResult (ε : Type) where
  /-- history as observed immediately after each `yield`. -/
  midHistories : List (List Content)
  /-- history once the generator finishes (normally or by throwing). -/
  history : List Content
  /-- the error propagated to the consumer, if any. -/
  err : Option ε

/-- The loop of `wrapStreamWithHistoryUpdate`: `hist` is `this.history`,
`added` is `hasAddedUserContent`, `acc` is `modelContents`. -/
def wrapGo {ε : Type} (user : Content) (hist : List Content) (added : Bool)
    (acc : List Content) : List UResp → StreamEnd ε → WrapResult ε
  | [], .done =>
    -- `if (modelContents.length > 0) this.history.push(...modelContents)`
    ⟨[], if acc.length > 0 then hist ++ acc else hist, none⟩
  | [], .error e =>
    -- catch: `if (!hasAddedUserContent) this.history.push(userContent); throw`
    ⟨[], if added then hist else hist ++ [user], some e⟩
  | r :: rs, fin =>
    let hist' := if added then hist else hist ++ [user]
    -- `if (response.content && response.content.length > 0) modelContents.push(...)`
    let acc' := if r.content.length > 0 then acc ++ r.content else acc
    let rest := wrapGo user hist' true acc' rs fin
    ⟨hist' :: rest.midHistories, rest.history, rest.err⟩

/-- Model of `wrapStreamWithHistoryUpdate(userContent, responseStream)` applied to a
session whose history is `hist`. -/
def wrapStreamWithHistoryUpdate {ε : Type} (hist : List Content) (user : Content)
    (resps : List UResp) (fin : StreamEnd ε) : WrapResult ε :=
  wrapGo user hist false [] resps fin

end BaseProviderSession

/-! ### Errors and `BaseProviderClient.retryWithBackoff` (`providers/base/BaseProviderClient.ts`) -/

/-- A thrown JavaScript error as the base client sees it: either a
`ProviderError` (with optional code and HTTP status) or a plain `Error`. -/
inductive JsError
  | providerError (message : Str) (provider : AIProvider)
      (code : Option Str) (statusCode : Option Nat)
  | plainError (message : Str)
  deriving DecidableEq, Repr

/-- Model of `message.includes(needle)`. -/
def strIncludes (message needle : Str) : Bool := decide (needle <:+: message)

/-- Model of `handleError(error)`: `ProviderError`s pass through; anything else is
classified by message substrings into a `ProviderError`. -/
def handleError (provider : AIProvider) (e : JsError) : JsError :=
  match e with
  | .providerError _ _ _ _ => e
  | .plainError msg =>
    let classified : Str × Nat :=
      if strIncludes msg (str "401") || strIncludes msg (str "unauthorized") then
        (str "AUTHENTICATION_ERROR", 401)
      else if strIncludes msg (str "429") || strIncludes msg (str "rate limit") then
        (str "RATE_LIMIT_ERROR", 429)
      else if strIncludes msg (str "404") || strIncludes msg (str "not found") then
        (str "NOT_FOUND_ERROR", 404)
      else if strIncludes msg (str "403") || strIncludes msg (str "forbidden") then
        (str "FORBIDDEN_ERROR", 403)
      else (str "UNKNOWN_ERROR", 500)
    .providerError msg provider (some classified.1) (some classified.2)

/-- The `error instanceof ProviderError && statusCode ∈ {401, 403, 404}` test
that suppresses retries. -/
def nonRetryable : JsError → Bool
  | .providerError _ _ _ (some s) => s = 401 || s = 403 || s = 404
  | _ => false

/-- Outcome of `retryWithBackoff`: the settled result, the sleep durations in
milliseconds (delay plus jitter, a rational since jitter is fractional), and
how many times `operation` was invoked. -/
structure RetryResult (α : Type) where
  result : Except JsError α
  sleeps : List ℚ
  attempts : Nat
  deriving Repr

/-- The `for (attempt = 0; attempt <= maxRetries; attempt++)` loop.  `op n`
is the outcome of the n-th invocation of `operation`; `jit n` models the
`Math.random()` draw of that attempt (a rational in `[0, 1)`);
`fuel = maxRetries - attempt` counts the retries still allowed. -/
def retryAux {α : Type} (provider : AIProvider) (op : Nat → Except JsError α)
    (jit : Nat → ℚ) (baseDelayMs : ℚ) (attempt : Nat) : Nat → RetryResult α
  | 0 =>
    match op attempt with
    | .ok v => ⟨.ok v, [], attempt + 1⟩
    | .error e => ⟨.error (handleError provider e), [], attempt + 1⟩
  | fuel + 1 =>
    match op attempt with
    | .ok v => ⟨.ok v, [], attempt + 1⟩
    | .error e =>
      if nonRetryable e then ⟨.error (handleError provider e), [], attempt + 1⟩
      else
        let delay := baseDelayMs * 2 ^ attempt
        let jitter := jit attempt * (1 / 10) * delay
        let rest := retryAux provider op jit baseDelayMs (attempt + 1) fuel
        ⟨rest.result, (delay + jitter) :: rest.sleeps, rest.attempts⟩

/-- Model of `retryWithBackoff(operation, maxRetries = 3, baseDelayMs = 1000)`. -/
def retryWithBackoff {α : Type} (provider : AIProvider) (op : Nat → Except JsError α)
    (jit : Nat → ℚ) (maxRetries : Nat := 3) (baseDelayMs : ℚ := 1000) : RetryResult α :=
  retryAux provider op jit baseDelayMs 0 maxRetries

/-- The sleep `retryWithBackoff` performs after failed attempt `j`. -/
def delayAt (jit : Nat → ℚ) (base : ℚ) (j : Nat) : ℚ :=
  base * 2 ^ j + jit j * (1 / 10) * (base * 2 ^ j)

/-! ### Capabilities and the tool registry (`ProviderToolRegistry`, `ToolManager`) -/

/-- Model of `ProviderCapabilities`. -/
structure ProviderCapabilities where
  supportsStreaming : Bool
  supportsTools : Bool
  supportsImages : Bool
  supportsSystemPrompts : Bool
  maxContextLength : Nat
  supportedModels : List Str
  deriving DecidableEq, Repr

/-- Model of `keyof ProviderCapabilities`. -/
inductive CapKey
  | supportsStreaming
  | supportsTools
  | supportsImages
  | supportsSystemPrompts
  | maxContextLength
  | supportedModels
  deriving DecidableEq, Repr

/-- Model of `capabilities[key]` under JavaScript truthiness (`0` and `[]`-as-array are
the non-boolean cases: `0` is falsy, an array is always truthy). -/
def capTruthy (caps : ProviderCapabilities) : CapKey → Bool
  | .supportsStreaming => caps.supportsStreaming
  | .supportsTools => caps.supportsTools
  | .supportsImages => caps.supportsImages
  | .supportsSystemPrompts => caps.supportsSystemPrompts
  | .maxContextLength => caps.maxContextLength ≠ 0
  | .supportedModels => true

/-- A `Tool` as the registry consumes it: the first function declaration's
name plus opaque payload. -/
structure Tool where
  declName : Option Str
  description : Str := []
  parameters : Str := []
  deriving DecidableEq, Repr

/-- Model of `getToolName(tool)`: `tool.function_declarations?.[0]?.name || 'unknown_tool'`
(an empty name string is falsy). -/
def getToolName (t : Tool) : Str :=
  match t.declName with
  | some n => if n.isEmpty then str "unknown_tool" else n
  | none => str "unknown_tool"

/-- Per-provider tool override (`providerSpecificConfig[provider]`); payload
modelled opaquely, replacement standing in for the object spread-merge. -/
structure ToolOverride where
  parameters : Option Str := none
  description : Option Str := none
  deriving DecidableEq, Repr

/-- Model of `applyProviderConfig(tool, config)`: clones the tool and overrides
parameters/description when the override carries truthy values. -/
def applyProviderConfig (tool : Tool) (ov : ToolOverride) : Tool :=
  let tool :=
    match ov.parameters with
    | some p => if p.isEmpty then tool else { tool with parameters := p }
    | none => tool
  match ov.description with
  | some d => if d.isEmpty then tool else { tool with description := d }
  | none => tool

/-- Model of `ProviderToolConfig`. -/
structure ProviderToolConfig where
  toolName : Str
  supportedProviders : List AIProvider
  requiresCapability : Option CapKey
  providerSpecificConfig : List (AIProvider × ToolOverride) := []
  deriving DecidableEq, Repr

/-- Model of `config.providerSpecificConfig?.[provider]`. -/
def ProviderToolConfig.overrideFor (cfg : ProviderToolConfig) (p : AIProvider) :
    Option ToolOverride :=
  (cfg.providerSpecificConfig.find? fun kv => kv.1 = p).map (·.2)

/-- The two maps held by `ProviderToolRegistry`. -/
structure Registry where
  toolConfigs : List (Str × ProviderToolConfig)
  globalTools : List (Str × Tool)
  deriving Repr

/-- Model of `registerTool(tool, config)`. -/
def registerTool (reg : Registry) (tool : Tool) (supportedProviders : List AIProvider)
    (requiresCapability : Option CapKey)
    (providerSpecificConfig : List (AIProvider × ToolOverride) := []) : Registry :=
  let toolName := getToolName tool
  { toolConfigs := aset reg.toolConfigs toolName
      ⟨toolName, supportedProviders, requiresCapability, providerSpecificConfig⟩,
    globalTools := aset reg.globalTools toolName tool }

/-- Model of `isToolSupported(toolName, provider, capabilities)`. -/
def isToolSupported (reg : Registry) (toolName : Str) (provider : AIProvider)
    (caps : ProviderCapabilities) : Bool :=
  match aget reg.toolConfigs toolName with
  | none => false
  | some cfg =>
    if !cfg.supportedProviders.contains provider then false
    else
      match cfg.requiresCapability with
      | some k => capTruthy caps k
      | none => true

/-- Model of `getToolsForProvider(provider, capabilities, requestedTools?)`. -/
def getToolsForProvider (reg : Registry) (provider : AIProvider)
    (caps : ProviderCapabilities) (requestedTools : Option (List Str)) : List Tool :=
  reg.toolConfigs.filterMap fun kv =>
    let toolName := kv.1
    let cfg := kv.2
    if !cfg.supportedProviders.contains provider then none
    else if (match cfg.requiresCapability with
             | some k => !capTruthy caps k
             | none => false) then none
    else if (match requestedTools with
             | some req => !req.contains toolName
             | none => false) then none
    else
      match aget reg.globalTools toolName with
      | none => none
      | some tool =>
        match cfg.overrideFor provider with
        | some ov => some (applyProviderConfig tool ov)
        | none => some tool

/-- Model of `getUnsupportedTools(provider, capabilities, requestedTools)`. -/
def getUnsupportedTools (reg : Registry) (provider : AIProvider)
    (caps : ProviderCapabilities) (requestedTools : List Str) : List Str :=
  requestedTools.filter fun toolName => !isToolSupported reg toolName provider caps

/-! ### A small JSON model

The streaming adapters run `JSON.parse` on each line they carve out of the
byte stream and skip lines that fail to parse.  The model implements the
fragment of JSON the wire protocols use (objects, arrays, strings without
escape sequences, integers, booleans, null); crucially, a truncated document
fails to parse, exactly as `JSON.parse` on a partial line does. -/

/-- JSON values. -/
inductive JValue
  | jnull
  | jbool (b : Bool)
  | jnum (n : Int)
  | jstr (s : Str)
  | jarr (xs : List JValue)
  | jobj (fields : List (Str × JValue))

/-- JavaScript truthiness of a JSON value. -/
def jTruthy : JValue → Bool
  | .jnull => false
  | .jbool b => b
  | .jnum n => n ≠ 0
  | .jstr s => !s.isEmpty
  | .jarr _ => true
  | .jobj _ => true

def isWsChar (c : Char) : Bool := c = ' ' || c = '\t' || c = '\n' || c = '\r'

def skipWs (cs : Str) : Str := cs.dropWhile isWsChar

def isDigitChar (c : Char) : Bool := '0' ≤ c && c ≤ '9'

/-- Value of a decimal digit character. -/
def digitVal (c : Char) : Nat := c.toNat - 48

/-- Parses a JSON string body (after the opening quote); escape sequences are
outside the modelled fragment and make the parse fail. -/
def parseStrBody : Str → Option (Str × Str)
  | [] => none
  | c :: rest =>
    if c = '"' then some ([], rest)
    else if c = '\\' then none
    else (parseStrBody rest).map fun p => (c :: p.1, p.2)

/-- Parses a run of decimal digits into its value. -/
def parseDigits (cs : Str) : Option (Nat × Str) :=
  let digits := cs.takeWhile isDigitChar
  if digits.isEmpty then none
  else some (digits.foldl (fun a c => 10 * a + digitVal c) 0, cs.dropWhile isDigitChar)

mutual

/-- Parses one JSON value, returning it and the unconsumed remainder. -/
def parseJV : Nat → Str → Option (JValue × Str)
  | 0, _ => none
  | fuel + 1, cs =>
    match skipWs cs with
    | [] => none
    | c :: rest =>
      if c = '"' then (parseStrBody rest).map fun p => (.jstr p.1, p.2)
      else if c = '{' then parseObjItems fuel (skipWs rest)
      else if c = '[' then parseArrItems fuel (skipWs rest)
      else if c = 't' then
        if strStartsWith rest (str "rue") then some (.jbool true, rest.drop 3) else none
      else if c = 'f' then
        if strStartsWith rest (str "alse") then some (.jbool false, rest.drop 4) else none
      else if c = 'n' then
        if strStartsWith rest (str "ull") then some (.jnull, rest.drop 3) else none
      else if c = '-' then
        (parseDigits rest).map fun p => (.jnum (-(p.1 : Int)), p.2)
      else if isDigitChar c then
        (parseDigits (c :: rest)).map fun p => (.jnum (p.1 : Int), p.2)
      else none

/-- Parses array items, called just past `[`. -/
def parseArrItems : Nat → Str → Option (JValue × Str)
  | 0, _ => none
  | fuel + 1, cs =>
    match cs with
    | ']' :: rest => some (.jarr [], rest)
    | _ =>
      match parseJV fuel cs with
      | none => none
      | some (v, r) => parseArrTail fuel v [] (skipWs r)

/-- Parses `, item`* `]` after an array item. -/
def parseArrTail : Nat → JValue → List JValue → Str → Option (JValue × Str)
  | 0, _, _, _ => none
  | fuel + 1, v, acc, cs =>
    match cs with
    | ']' :: rest => some (.jarr (acc ++ [v]).reverse, rest)
    | ',' :: rest =>
      match parseJV fuel rest with
      | none => none
      | some (v', r) => parseArrTail fuel v' (acc ++ [v]) (skipWs r)
    | _ => none

/-- Parses object members, called just past `{`. -/
def parseObjItems : Nat → Str → Option (JValue × Str)
  | 0, _ => none
  | fuel + 1, cs =>
    match cs with
    | '}' :: rest => some (.jobj [], rest)
    | '"' :: rest =>
      match parseStrBody rest with
      | none => none
      | some (key, r) =>
        match skipWs r with
        | ':' :: r' =>
          match parseJV fuel r' with
          | none => none
          | some (v, r'') => parseObjTail fuel (key, v) [] (skipWs r'')
        | _ => none
    | _ => none

/-- Parses `, "key": value`* `}` after an object member. -/
def parseObjTail : Nat → (Str × JValue) → List (Str × JValue) → Str →
    Option (JValue × Str)
  | 0, _, _, _ => none
  | fuel + 1, kv, acc, cs =>
    match cs with
    | '}' :: rest => some (.jobj (acc ++ [kv]).reverse, rest)
    | ',' :: rest =>
      match skipWs rest with
      | '"' :: r =>
        match parseStrBody r with
        | none => none
        | some (key, r') =>
          match skipWs r' with
          | ':' :: r'' =>
            match parseJV fuel r'' with
            | none => none
            | some (v, r3) => parseObjTail fuel (key, v) (acc ++ [kv]) (skipWs r3)
          | _ => none
      | _ => none
    | _ => none

end

/-- Model of `JSON.parse(s)`: the whole input, up to surrounding whitespace, must be
one JSON value. -/
def jsonParse (s : Str) : Option JValue :=
  match parseJV (s.length + 1) s with
  | some (v, rest) => if (skipWs rest).isEmpty then some v else none
  | none => none

/-- Field lookup on an object value (`undefined` otherwise). -/
def jField (j : JValue) (key : Str) : Option JValue :=
  match j with
  | .jobj fields => (fields.find? fun kv => kv.1 = key).map (·.2)
  | _ => none

/-- Model of `j[key]` as a string, if it is one. -/
def jStrField (j : JValue) (key : Str) : Option Str :=
  match jField j key with
  | some (.jstr s) => some s
  | _ => none

/-- Model of `j[key]` as an integer, defaulting to 0 (`x || 0`). -/
def jNumFieldOrZero (j : JValue) (key : Str) : Int :=
  match jField j key with
  | some (.jnum n) => n
  | _ => 0

/-- Model of `s.split(sep)` for a one-character separator, JavaScript semantics
(`"a\n".split` gives `["a", ""]`, `"".split` gives `[""]`). -/
def splitOnChar (sep : Char) : Str → List Str
  | [] => [[]]
  | c :: t =>
    match splitOnChar sep t with
    | [] => [[]]
    | h :: r => if c = sep then [] :: h :: r else (c :: h) :: r

/-- Model of `s.trim()`. -/
def trimWs (s : Str) : Str :=
  ((s.dropWhile isWsChar).reverse.dropWhile isWsChar).reverse

/-! ### `ClaudeProviderClient.convertStreamToUnified`

The byte stream is modelled as the list of strings successive `reader.read()`
calls deliver (what `decoder.decode(value)` returns).  `createBaseResponse`
mints an id from the wall clock; since two runs of the generator never share
ids anyway, events are compared by their payload (content/usage), which is
the information-bearing part.  `currentMessage` is tracked by the source but
only ever used in a truthiness test that an object always passes, so it does
not appear in the model. -/

/-- Processes one line from a read: the `data: ` prefix check, `JSON.parse`
of the rest (a failure is skipped), and the `switch` on the chunk type.
Returns the updated `currentText` and the responses yielded. -/
def claudeLine (currentText : Str) (line : Str) : Str × List BaseProviderSession.UResp :=
  if strStartsWith line (str "data: ") then
    match jsonParse (line.drop 6) with
    | none => (currentText, [])
    | some j =>
      match jStrField j (str "type") with
      | some t =>
        if t = str "content_block_delta" then
          match jField j (str "delta") with
          | some delta =>
            match jStrField delta (str "text") with
            | some txt =>
              -- `if (data.delta?.text)`: an empty text delta is falsy
              if txt.isEmpty then (currentText, [])
              else
                let currentText := currentText ++ txt
                (currentText, [{ content := [⟨.model, some [.text currentText]⟩] }])
            | none => (currentText, [])
          | none => (currentText, [])
        else if t = str "message_stop" then
          -- `if (data.usage && currentMessage)`: `currentMessage` is always
          -- an object, hence truthy; only `data.usage` decides
          match jField j (str "usage") with
          | some usage =>
            if jTruthy usage then
              let total := jNumFieldOrZero usage (str "input_tokens")
                + jNumFieldOrZero usage (str "output_tokens")
              (currentText,
                [{ content := [⟨.model, some [.text currentText]⟩],
                   usageTotalTokens := some total.toNat }])
            else (currentText, [])
          | none => (currentText, [])
        else (currentText, [])
      | none => (currentText, [])
  else (currentText, [])

/-- The full generator: for each read, split on `'\n'` and process each line.
No partial line is carried from one read to the next — each read is split
and processed in isolation, exactly as the source does. -/
def claudeConvertStreamToUnified (reads : List Str) : List BaseProviderSession.UResp :=
  (reads.foldl
    (fun acc read =>
      (splitOnChar '\n' read).foldl
        (fun acc line =>
          let step := claudeLine acc.1 line
          (step.1, acc.2 ++ step.2))
        acc)
    (([] : Str), ([] : List BaseProviderSession.UResp))).2

/-! ### `OllamaProviderClient.convertStreamToUnified`

Newline-delimited JSON: each read is split on `'\n'`, blank lines filtered
out (`filter(line => line.trim())`), each line `JSON.parse`d (failures
skipped).  A chunk with truthy `message.content` yields that fragment;
a chunk with `done` truthy additionally yields a final response carrying the
accumulated text and usage counters. -/

/-- Processes one non-blank line: `accumulatedText` updates plus yields. -/
def ollamaLine (accumulatedText : Str) (line : Str) :
    Str × List BaseProviderSession.UResp :=
  match jsonParse line with
  | none => (accumulatedText, [])
  | some j =>
    let content :=
      match jField j (str "message") with
      | some msg => jStrField msg (str "content")
      | none => none
    let done := jTruthy ((jField j (str "done")).getD .jnull)
    let (accumulatedText, fragEvents) :=
      match content with
      | some s =>
        -- `if (data.message?.content)`: empty content is falsy
        if s.isEmpty then (accumulatedText, [])
        else
          (accumulatedText ++ s,
           [({ content := [⟨.model, some [.text s]⟩],
               finishReason := if done then some (str "STOP") else none } :
             BaseProviderSession.UResp)])
      | none => (accumulatedText, [])
    if done then
      let total := (jNumFieldOrZero j (str "prompt_eval_count")
        + jNumFieldOrZero j (str "eval_count")).toNat
      (accumulatedText,
       fragEvents ++
         [({ content := [⟨.model, some [.text accumulatedText]⟩],
             usageTotalTokens := some total,
             finishReason := some (str "STOP") } : BaseProviderSession.UResp)])
    else (accumulatedText, fragEvents)

/-- The full Ollama stream conversion over the successive reads. -/
def ollamaConvertStreamToUnified (reads : List Str) : List BaseProviderSession.UResp :=
  (reads.foldl
    (fun acc read =>
      (((splitOnChar '\n' read).filter fun l => !(trimWs l).isEmpty).foldl
        (fun acc line =>
          let step := ollamaLine acc.1 line
          (step.1, acc.2 ++ step.2))
        acc))
    (([] : Str), ([] : List BaseProviderSession.UResp))).2

/-! ### Provider configuration and validation (`config/providerConfig.ts`) -/

/-- Model of `ProviderConfig`. -/
structure ProviderConfig where
  provider : AIProvider
  model : Str
  authType : ProviderAuthType
  apiKey : Option Str := none
  endpoint : Option Str := none
  proxy : Option Str := none
  enabled : Bool
  maxTokens : Option Nat := none
  temperature : Option ℚ := none
  topP : Option ℚ := none
  deriving DecidableEq, Repr

/-- Model of `AgentConfig`.  `autoStart?: boolean` with `undefined` falsy is folded
into a plain `Bool`. -/
structure AgentConfig where
  agentId : Str
  name : Str
  provider : AIProvider
  providerConfig : ProviderConfig
  tools : Option (List Tool) := none
  systemPrompt : Option Str := none
  autoStart : Bool := false
  maxSessions : Option Nat := none
  deriving DecidableEq, Repr

/-- The process environment variables the provider layer consults. -/
structure Env where
  geminiApiKey : Option Str := none
  googleApiKey : Option Str := none
  anthropicApiKey : Option Str := none
  ollamaHost : Option Str := none
  deriving DecidableEq, Repr

/-- JavaScript truthiness of an optional string (`undefined` and `''` falsy). -/
def optTruthy : Option Str → Bool
  | some s => !s.isEmpty
  | none => false

/-- Model of `PROVIDER_MODELS`. -/
def PROVIDER_MODELS : AIProvider → List Str
  | .gemini =>
    [str "gemini-2.0-flash-exp", str "gemini-1.5-pro", str "gemini-1.5-flash",
     str "gemini-1.0-pro"]
  | .claude =>
    [str "claude-3-5-sonnet-20241022", str "claude-3-5-haiku-20241022",
     str "claude-3-opus-20240229", str "claude-3-sonnet-20240229",
     str "claude-3-haiku-20240307"]
  | .ollama =>
    [str "llama2", str "llama2:13b", str "llama2:70b", str "codellama",
     str "codellama:13b", str "codellama:34b", str "mistral", str "mixtral",
     str "phi", str "neural-chat", str "starling-lm"]

/-- Model of `validateProviderConfig(config)`.  The `!config.provider` and
`!config.authType` checks cannot fire on enum values and are omitted; each
other check contributes its error message in source push-order. -/
def validateProviderConfig (env : Env) (config : ProviderConfig) : List Str :=
  (if config.model.isEmpty then [str "Model is required"] else [])
  ++ (match config.provider with
      | .gemini =>
        if (config.authType = ProviderAuthType.geminiApiKey
              ∨ config.authType = ProviderAuthType.vertexAi)
            ∧ ¬ (optTruthy config.apiKey ∨ optTruthy env.geminiApiKey
              ∨ optTruthy env.googleApiKey) then
          [str "API key is required for Gemini API key authentication"]
        else []
      | .claude =>
        (if config.authType = ProviderAuthType.claudeApiKey
            ∧ ¬ (optTruthy config.apiKey ∨ optTruthy env.anthropicApiKey) then
          [str "API key is required for Claude authentication"]
        else [])
        ++ (if ¬ optTruthy config.endpoint then
              [str "Endpoint is required for Claude"] else [])
      | .ollama =>
        if ¬ optTruthy config.endpoint then
          [str "Endpoint is required for Ollama"] else [])
  ++ (if ¬ config.model.isEmpty ∧ ¬ (PROVIDER_MODELS config.provider).contains config.model
      then [str "Model ", config.model, str " is not supported"] else [])
  ++ (match config.temperature with
      | some t => if t < 0 ∨ 2 < t then [str "Temperature must be between 0 and 2"] else []
      | none => [])
  ++ (match config.topP with
      | some p => if p < 0 ∨ 1 < p then [str "TopP must be between 0 and 1"] else []
      | none => [])
  ++ (match config.maxTokens with
      | some m => if m < 1 then [str "MaxTokens must be greater than 0"] else []
      | none => [])

/-- Model of `validateAgentConfig(config)`. -/
def validateAgentConfig (env : Env) (config : AgentConfig) : List Str :=
  (if config.agentId.isEmpty then [str "Agent ID is required"] else [])
  ++ (if config.name.isEmpty then [str "Agent name is required"] else [])
  ++ ((validateProviderConfig env config.providerConfig).map
        fun e => str "Provider config: " ++ e)
  ++ (match config.maxSessions with
      | some m => if m < 1 then [str "MaxSessions must be greater than 0"] else []
      | none => [])

/-! ### Provider clients and the factory (`BaseProviderClient`, `ProviderFactory`) -/

/-- A constructed provider adapter.  `validateOk`/`testOk` are the oracle
outcomes of the asynchronous `validateConfig()`/`testConnection()` calls
(they depend on credentials and on the live endpoint, which the embedding
treats as the environment's choice, fixed per client instance). -/
structure ProviderClient where
  provider : AIProvider
  config : ProviderConfig
  validateOk : Bool
  testOk : Bool
  deriving DecidableEq, Repr

/-- External calls the manager-level code paths perform. -/
inductive NetEvent
  | validateConfigCall (p : AIProvider)
  | testConnectionCall (p : AIProvider)
  deriving DecidableEq, Repr

/-- Constructor chain `new XProviderClient(config)`: `BaseProviderClient`
throws `ProviderError` on a disabled config before anything else; the Claude
subclass additionally throws `AuthenticationError` when no API key can be
resolved (`config.apiKey || process.env.ANTHROPIC_API_KEY || ''`); the
Gemini and Ollama subclass constructors throw nothing further. -/
def mkClient (env : Env) (beh : Bool × Bool) (config : ProviderConfig) :
    Except JsError ProviderClient :=
  if !config.enabled then
    .error (.providerError (str "Provider is disabled") config.provider none none)
  else
    match config.provider with
    | .claude =>
      let apiKey : Str :=
        if optTruthy config.apiKey then config.apiKey.getD []
        else if optTruthy env.anthropicApiKey then env.anthropicApiKey.getD []
        else []
      if apiKey.isEmpty then
        .error (.providerError (str "Claude API key is required") .claude
          (some (str "AUTHENTICATION_ERROR")) (some 401))
      else .ok ⟨.claude, config, beh.1, beh.2⟩
    | .gemini => .ok ⟨.gemini, config, beh.1, beh.2⟩
    | .ollama => .ok ⟨.ollama, config, beh.1, beh.2⟩

/-- The enum string of a `ProviderAuthType`. -/
def ProviderAuthType.toStr : ProviderAuthType → Str
  | .oauthPersonal => str "oauth-personal"
  | .geminiApiKey => str "gemini-api-key"
  | .vertexAi => str "vertex-ai"
  | .cloudShell => str "cloud-shell"
  | .claudeApiKey => str "claude-api-key"
  | .ollamaLocal => str "ollama-local"
  | .ollamaRemote => str "ollama-remote"

/-- Model of `createCacheKey(config)`: note that `enabled` is not part of the key. -/
def cacheKey (config : ProviderConfig) : Str :=
  config.provider.toStr ++ str "|" ++ config.model ++ str "|"
    ++ config.authType.toStr ++ str "|"
    ++ (if optTruthy config.apiKey then config.apiKey.getD [] else str "no-key")
    ++ str "|"
    ++ (if optTruthy config.endpoint then config.endpoint.getD []
        else str "default-endpoint")

/-- Model of `ProviderFactory.createClient(config)`: cache hit returns the cached
adapter without constructing anything; otherwise the adapter is constructed
and cached. -/
def createClient (env : Env) (beh : Bool × Bool)
    (cache : List (Str × ProviderClient)) (config : ProviderConfig) :
    Except JsError ProviderClient × List (Str × ProviderClient) :=
  let key := cacheKey config
  match aget cache key with
  | some c => (.ok c, cache)
  | none =>
    match mkClient env beh config with
    | .error e => (.error e, cache)
    | .ok c => (.ok c, aset cache key c)

/-! ### `MultiAgentManager` (`providers/manager/AgentManager.ts`) -/

/-- A live `BaseProviderSession` as the manager sees it. -/
structure Session where
  sessionId : Str
  provider : AIProvider
  history : List Content
  tools : List Tool
  deriving DecidableEq, Repr

/-- Errors thrown by the manager (the source throws `Error`s with these
messages; they are modelled as constructors). -/
inductive MErr
  | invalidAgentConfig (errors : List Str)
  | duplicateAgent (agentId : Str)
  | clientError (e : JsError)
  | invalidProviderConfig (agentId : Str)
  | cannotConnect (agentId : Str)
  | agentNotFound (agentId : Str)
  | providerNotFound (agentId : Str)
  /-- Model of `Maximum concurrent sessions (cap) reached` -/
  | concurrencyLimit (cap : Nat)
  /-- Model of `Maximum sessions for agent agentId (m) reached` -/
  | agentSessionLimit (agentId : Str) (m : Nat)
  | sessionNotFound (sessionId : Str)
  deriving DecidableEq, Repr

/-- The manager's mutable state plus the factory cache it owns and the
counter standing in for `Date.now()`/`Math.random()`. -/
structure MState where
  agents : List (Str × AgentConfig) := []
  sessions : List (Str × Session) := []
  providers : List (Str × ProviderClient) := []
  activeSessionId : Option Str := none
  factoryCache : List (Str × ProviderClient) := []
  clock : Nat := 0
  deriving DecidableEq, Repr

/-- An operation's result: the returned value or thrown error, the state
after the call (JavaScript mutations survive a throw), and the external
calls made. -/
structure OpResult (α : Type) where
  res : Except MErr α
  state : MState
  net : List NetEvent
  deriving Repr

/-- The session id `${agentId}-${Date.now()}-${...random...}`; the varying
tail is minted from the state counter. -/
def newSessionId (agentId : Str) (clock : Nat) : Str :=
  agentId ++ '-' :: natChars clock

/-- The tool list a new session starts with:
`if (agent.tools && agent.tools.length > 0) session.setTools(agent.tools)`. -/
def sessionToolsOf (agent : AgentConfig) : List Tool :=
  match agent.tools with
  | some ts => if 0 < ts.length then ts else []
  | none => []

/-- The seeded history of a new session:
`if (agent.systemPrompt) session.history.push({role: 'user', ...})`
(an empty system prompt is falsy). -/
def sessionHistoryOf (agent : AgentConfig) : List Content :=
  match agent.systemPrompt with
  | some sp => if sp.isEmpty then [] else [⟨Role.user, some [Part.text sp]⟩]
  | none => []

/-- Model of `startSession(agentId)` on a manager constructed with
`maxConcurrentSessions = cap`. -/
def startSession (cap : Nat) (st : MState) (agentId : Str) : OpResult Str :=
  match aget st.agents agentId with
  | none => ⟨.error (.agentNotFound agentId), st, []⟩
  | some agent =>
    match aget st.providers agentId with
    | none => ⟨.error (.providerNotFound agentId), st, []⟩
    | some _ =>
      if cap ≤ st.sessions.length then ⟨.error (.concurrencyLimit cap), st, []⟩
      else
        let agentSessions := st.sessions.filter fun kv => strStartsWith kv.1 agentId
        -- `if (agent.maxSessions && agentSessions.length >= agent.maxSessions)`:
        -- `maxSessions` equal to 0 is falsy and disables the check
        let agentCapHit :=
          match agent.maxSessions with
          | some m => m ≠ 0 && agentSessions.length ≥ m
          | none => false
        if agentCapHit then
          ⟨.error (.agentSessionLimit agentId (agent.maxSessions.getD 0)), st, []⟩
        else
          let sessionId := newSessionId agentId st.clock
          let session : Session :=
            ⟨sessionId, agent.provider, sessionHistoryOf agent, sessionToolsOf agent⟩
          let sessions' := aset st.sessions sessionId session
          let active' :=
            match st.activeSessionId with
            | none => some sessionId
            | some a => some a
          ⟨.ok sessionId,
           { st with sessions := sessions', activeSessionId := active',
                     clock := st.clock + 1 }, []⟩

/-- Model of `createAgent(config)`.  Validation → duplicate check → factory →
`validateConfig()` → `testConnection()` → registration → optional
auto-start.  A throw from the auto-started session propagates, but the agent
stays registered (JavaScript exception semantics). -/
def createAgent (env : Env) (beh : Bool × Bool) (cap : Nat) (st : MState)
    (config : AgentConfig) : OpResult Str :=
  let errors := validateAgentConfig env config
  if 0 < errors.length then ⟨.error (.invalidAgentConfig errors), st, []⟩
  else if (aget st.agents config.agentId).isSome then
    ⟨.error (.duplicateAgent config.agentId), st, []⟩
  else
    match createClient env beh st.factoryCache config.providerConfig with
    | (.error e, cache') =>
      ⟨.error (.clientError e), { st with factoryCache := cache' }, []⟩
    | (.ok client, cache') =>
      let st := { st with factoryCache := cache' }
      let netV := [NetEvent.validateConfigCall client.provider]
      if !client.validateOk then
        ⟨.error (.invalidProviderConfig config.agentId), st, netV⟩
      else
        let netT := netV ++ [NetEvent.testConnectionCall client.provider]
        if !client.testOk then ⟨.error (.cannotConnect config.agentId), st, netT⟩
        else
          let st := { st with
            agents := aset st.agents config.agentId config,
            providers := aset st.providers config.agentId client }
          if config.autoStart then
            let r := startSession cap st config.agentId
            ⟨r.res.map fun _ => config.agentId, r.state, netT ++ r.net⟩
          else ⟨.ok config.agentId, st, netT⟩

/-- Model of `endSession(sessionId)`: clears the (discarded) session's history,
removes it, and repairs the active-session pointer. -/
def endSession (st : MState) (sessionId : Str) : OpResult Unit :=
  match aget st.sessions sessionId with
  | none => ⟨.error (.sessionNotFound sessionId), st, []⟩
  | some _ =>
    let sessions' := adel st.sessions sessionId
    let active' :=
      if st.activeSessionId = some sessionId then
        match sessions' with
        | [] => none
        | kv :: _ => some kv.1
      else st.activeSessionId
    ⟨.ok (), { st with sessions := sessions', activeSessionId := active' }, []⟩

/-- Model of `removeAgent(agentId)`: ends every session whose id starts with the
agent id (each exists, so no `endSession` call can throw), then unregisters
the agent and clears a dangling active pointer. -/
def removeAgent (st : MState) (agentId : Str) : OpResult Unit :=
  let toRemove := (st.sessions.filter fun kv => strStartsWith kv.1 agentId).map (·.1)
  let st' := toRemove.foldl (fun s sid => (endSession s sid).state) st
  let st'' := { st' with
    agents := adel st'.agents agentId,
    providers := adel st'.providers agentId }
  let active :=
    match st''.activeSessionId with
    | some a => if strStartsWith a agentId then none else some a
    | none => none
  ⟨.ok (), { st'' with activeSessionId := active }, []⟩

/-- Model of `switchToSession(sessionId)`. -/
def switchToSession (st : MState) (sessionId : Str) : OpResult Unit :=
  if (aget st.sessions sessionId).isNone then
    ⟨.error (.sessionNotFound sessionId), st, []⟩
  else ⟨.ok (), { st with activeSessionId := some sessionId }, []⟩

/-- Model of `Partial<AgentConfig>` for `updateAgent`. -/
structure AgentPatch where
  agentId : Option Str := none
  name : Option Str := none
  provider : Option AIProvider := none
  providerConfig : Option ProviderConfig := none
  tools : Option (List Tool) := none
  systemPrompt : Option Str := none
  autoStart : Option Bool := none
  maxSessions : Option Nat := none
  deriving Repr

/-- Model of `{ ...existingAgent, ...updates }`. -/
def mergeAgent (a : AgentConfig) (p : AgentPatch) : AgentConfig :=
  { agentId := p.agentId.getD a.agentId
    name := p.name.getD a.name
    provider := p.provider.getD a.provider
    providerConfig := p.providerConfig.getD a.providerConfig
    tools := match p.tools with | some t => some t | none => a.tools
    systemPrompt := match p.systemPrompt with | some s => some s | none => a.systemPrompt
    autoStart := p.autoStart.getD a.autoStart
    maxSessions := match p.maxSessions with | some m => some m | none => a.maxSessions }

/-- Model of `updateAgent(agentId, updates)`. -/
def updateAgent (env : Env) (beh : Bool × Bool) (st : MState) (agentId : Str)
    (updates : AgentPatch) : OpResult Unit :=
  match aget st.agents agentId with
  | none => ⟨.error (.agentNotFound agentId), st, []⟩
  | some existing =>
    let updated := mergeAgent existing updates
    let errors := validateAgentConfig env updated
    if 0 < errors.length then ⟨.error (.invalidAgentConfig errors), st, []⟩
    else
      match updates.providerConfig with
      | some _ =>
        match createClient env beh st.factoryCache updated.providerConfig with
        | (.error e, cache') =>
          ⟨.error (.clientError e), { st with factoryCache := cache' }, []⟩
        | (.ok client, cache') =>
          let st := { st with factoryCache := cache' }
          let netV := [NetEvent.validateConfigCall client.provider]
          if !client.validateOk then
            ⟨.error (.invalidProviderConfig agentId), st, netV⟩
          else
            ⟨.ok (),
             { st with providers := aset st.providers agentId client,
                       agents := aset st.agents agentId updated }, netV⟩
      | none => ⟨.ok (), { st with agents := aset st.agents agentId updated }, []⟩

/-- Model of `shutdown()`: best-effort `endSession` on every live id (failures are
caught and logged), then clear the maps. -/
def shutdown (st : MState) : OpResult Unit :=
  let ids := st.sessions.map (·.1)
  let st' := ids.foldl (fun s sid => (endSession s sid).state) st
  ⟨.ok (), { st' with agents := [], providers := [], activeSessionId := none }, []⟩

/-- Default model per provider (`getDefaultModel`). -/
def getDefaultModel : AIProvider → Str
  | .gemini => str "gemini-2.0-flash-exp"
  | .claude => str "claude-3-5-sonnet-20241022"
  | .ollama => str "llama2"

/-- Default auth type per provider (`getDefaultAuthType`). -/
def getDefaultAuthType : AIProvider → ProviderAuthType
  | .gemini => ProviderAuthType.geminiApiKey
  | .claude => ProviderAuthType.claudeApiKey
  | .ollama => ProviderAuthType.ollamaLocal

/-- The agent id `quick-${provider}-${Date.now()}` minted by
`createQuickSession` (the timestamp is the state counter). -/
def quickAgentIdOf (p : AIProvider) (clock : Nat) : Str :=
  str "quick-" ++ p.toStr ++ '-' :: natChars clock

/-- The throwaway `AgentConfig` synthesized by `createQuickSession`. -/
def quickAgentConfig (p : AIProvider) (agentId : Str) (model? name? : Option Str) :
    AgentConfig :=
  { agentId
    name :=
      -- `name || `Quick ${provider} Agent``
      if optTruthy name? then name?.getD []
      else str "Quick " ++ p.toStr ++ str " Agent"
    provider := p
    providerConfig :=
      { provider := p
        model := if optTruthy model? then model?.getD [] else getDefaultModel p
        authType := getDefaultAuthType p
        enabled := true }
    autoStart := true }

/-- Model of `createQuickSession(provider, model?, name?)`: synthesize the agent,
create it (auto-starting one session), then start and return a second
session. -/
def createQuickSession (env : Env) (beh : Bool × Bool) (cap : Nat) (st : MState)
    (p : AIProvider) (model? name? : Option Str) : OpResult Str :=
  let agentId := quickAgentIdOf p st.clock
  let st := { st with clock := st.clock + 1 }
  let config := quickAgentConfig p agentId model? name?
  let r := createAgent env beh cap st config
  match r.res with
  | .error e => ⟨.error e, r.state, r.net⟩
  | .ok _ =>
    let r2 := startSession cap r.state agentId
    ⟨r2.res, r2.state, r.net ++ r2.net⟩

/-- The states a `MultiAgentManager` constructed with cap
`maxConcurrentSessions` can reach under any sequence of operations (each
constructor quantifies over the operation's arguments and the environment's
oracle outcomes). -/
inductive Reach (env : Env) (cap : Nat) : MState → Prop
  | init : Reach env cap {}
  | createAgent {s} (beh : Bool × Bool) (config : AgentConfig) :
      Reach env cap s → Reach env cap (createAgent env beh cap s config).state
  | startSession {s} (agentId : Str) :
      Reach env cap s → Reach env cap (startSession cap s agentId).state
  | endSession {s} (sessionId : Str) :
      Reach env cap s → Reach env cap (endSession s sessionId).state
  | removeAgent {s} (agentId : Str) :
      Reach env cap s → Reach env cap (removeAgent s agentId).state
  | switchToSession {s} (sessionId : Str) :
      Reach env cap s → Reach env cap (switchToSession s sessionId).state
  | updateAgent {s} (beh : Bool × Bool) (agentId : Str) (updates : AgentPatch) :
      Reach env cap s → Reach env cap (updateAgent env beh s agentId updates).state
  | shutdown {s} :
      Reach env cap s → Reach env cap (shutdown s).state
  | createQuickSession {s} (beh : Bool × Bool) (p : AIProvider)
      (model? name? : Option Str) :
      Reach env cap s → Reach env cap (createQuickSession env beh cap s p model? name?).state

/-! ### Invariants -/

/-- Every registered agent passed `validateAgentConfig` (the only ways into
the `agents` map run it first). -/
def agentsValidated (env : Env) (st : MState) : Prop :=
  ∀ kv ∈ st.agents, validateAgentConfig env kv.2 = []

/-- Well-formedness of a `ProviderToolRegistry`: map entries agree with
lookups and every stored tool is keyed by its own name (guaranteed by
`registerTool`, the only way in). -/
def RegistryWF (reg : Registry) : Prop :=
  (∀ kv ∈ reg.toolConfigs, aget reg.toolConfigs kv.1 = some kv.2)
  ∧ (∀ kv ∈ reg.globalTools, getToolName kv.2 = kv.1)

/-! ### Concrete instances used by the theorems below -/

/-- A token counter for tests: one token per turn. -/
def tokenByTurnCount : List Content → Nat := List.length

/-- A two-turn sample history. -/
def sampleHistoryAB : List Content :=
  [createUserContent (str "hi"), ⟨Role.model, some [Part.text (str "yo")]⟩]

/-- Sample user turn. -/
def sampleUserTurn : Content := createUserContent (str "Hi")

/-- First `data:` line of a sample Claude SSE stream. -/
def sseLine1 : Str :=
  str "data: \x7b\"type\":\"content_block_delta\",\"delta\":\x7b\"type\":\"text_delta\",\"text\":\"Hel\"\x7d\x7d"

/-- Second `data:` line of the sample stream. -/
def sseLine2 : Str :=
  str "data: \x7b\"type\":\"content_block_delta\",\"delta\":\x7b\"type\":\"text_delta\",\"text\":\"lo\"\x7d\x7d"

/-- The sample SSE byte stream. -/
def sseText : Str := sseLine1 ++ '\n' :: (sseLine2 ++ ['\n'])

/-- The same bytes split into two reads, the boundary falling inside the
second `data:` line. -/
def sseReadA : Str := sseText.take (sseLine1.length + 11)

/-- Remainder of the split read. -/
def sseReadB : Str := sseText.drop (sseLine1.length + 11)

/-- Sample Ollama NDJSON chunks: two content deltas and a final `done` chunk. -/
def ndjChunk1 : Str :=
  str "\x7b\"message\":\x7b\"role\":\"assistant\",\"content\":\"He\"\x7d,\"done\":false\x7d"

/-- Second delta. -/
def ndjChunk2 : Str :=
  str "\x7b\"message\":\x7b\"role\":\"assistant\",\"content\":\"llo\"\x7d,\"done\":false\x7d"

/-- Final chunk with usage counters. -/
def ndjChunk3 : Str :=
  str "\x7b\"message\":\x7b\"role\":\"assistant\",\"content\":\"\"\x7d,\"done\":true,\"prompt_eval_count\":3,\"eval_count\":2\x7d"

/-- The Ollama stream delivered in one read. -/
def ndjText : Str := ndjChunk1 ++ '\n' :: (ndjChunk2 ++ '\n' :: (ndjChunk3 ++ ['\n']))

/-- What the Ollama adapter yields on the sample stream. -/
def ollamaSampleResps : List BaseProviderSession.UResp :=
  ollamaConvertStreamToUnified [ndjText]

/-- A concrete retry operation: transient failure then success. -/
def opTransient : Nat → Except JsError Nat :=
  fun n => if n = 0 then .error (.plainError (str "boom")) else .ok 7

/-- A concrete retry operation: always a 401 `ProviderError`. -/
def opAuth401 : Nat → Except JsError Nat :=
  fun _ => .error (.providerError (str "no") .claude none (some 401))

/-- A jitter stream that always draws 0. -/
def zeroJit : Nat → ℚ := fun _ => 0

/-- The `mcp_tool` sample tool. -/
def mcpTool : Tool := { declName := some (str "mcp_tool") }

/-- A registry holding `mcp_tool`, requiring the `supportsTools` capability. -/
def regSample : Registry :=
  registerTool ⟨[], []⟩ mcpTool [.gemini, .ollama] (some .supportsTools)

/-- The hard-coded Ollama capabilities from `ToolManager` (no tool support). -/
def ollamaToolCaps : ProviderCapabilities :=
  { supportsStreaming := true, supportsTools := false, supportsImages := false,
    supportsSystemPrompts := true, maxContextLength := 8192,
    supportedModels := [str "llama2", str "mistral"] }

/-- An environment with no variables set. -/
def envEmpty : Env := {}

/-- An environment carrying a Gemini API key. -/
def envGemini : Env := { geminiApiKey := some (str "k") }

/-- A valid enabled Ollama provider config. -/
def ollamaProviderConfig : ProviderConfig :=
  { provider := .ollama, model := str "llama2", authType := .ollamaLocal,
    endpoint := some (str "http://localhost:11434"), enabled := true }

/-- The same config with `enabled: false`. -/
def disabledOllamaConfig : ProviderConfig := { ollamaProviderConfig with enabled := false }

/-- Agent `a` over the enabled Ollama config, no per-agent session cap. -/
def agentConfigA : AgentConfig :=
  { agentId := str "a", name := str "Agent A", provider := .ollama,
    providerConfig := ollamaProviderConfig }

/-- Agent `b` with a per-agent cap of one session. -/
def agentConfigB : AgentConfig :=
  { agentId := str "b", name := str "Agent B", provider := .ollama,
    providerConfig := ollamaProviderConfig, maxSessions := some 1 }

/-- Agent `a2` whose nested provider config is disabled. -/
def agentConfigDisabled : AgentConfig :=
  { agentId := str "a2", name := str "Agent A2", provider := .ollama,
    providerConfig := disabledOllamaConfig }

/-- Manager state (cap 1) after creating agent `a`. -/
def capOneAfterCreate : MState := (createAgent envEmpty (true, true) 1 {} agentConfigA).state

/-- Manager state (cap 1) with the single allowed session running. -/
def capOneFull : MState := (startSession 1 capOneAfterCreate (str "a")).state

/-- Manager state (cap 5) after creating agent `b` (per-agent cap 1). -/
def agentCapAfterCreate : MState := (createAgent envEmpty (true, true) 5 {} agentConfigB).state

/-- Manager state (cap 5) with agent `b`'s one allowed session running. -/
def agentCapFull : MState := (startSession 5 agentCapAfterCreate (str "b")).state

/-- Manager state (cap 5) after creating agent `a`, caching its adapter. -/
def cachedClientState : MState := (createAgent envEmpty (true, true) 5 {} agentConfigA).state

/-! ## Theorems

First the shared helper lemmas, then one theorem per claim (with witnesses
and counterexamples where called for). -/

theorem charDigit_digitChar (d : Nat) (h : d < 10) :
    charDigit (digitChar d) = d := by
  interval_cases d <;> rfl

theorem charsVal_append_digit (xs : Str) (c : Char) :
    charsVal (xs ++ [c]) = 10 * charsVal xs + charDigit c := by
  simp [charsVal, List.foldl_append]

theorem charsVal_natCharsAux (fuel : Nat) :
    ∀ n, n < fuel → charsVal (natCharsAux fuel n) = n := by
  induction fuel with
  | zero => intro n h; omega
  | succ f ih =>
    intro n h
    rw [natCharsAux]
    by_cases h10 : n < 10
    · simp [h10, charsVal, charDigit_digitChar n h10]
    · have hd : n / 10 < n := Nat.div_lt_self (by omega) (by omega)
      simp only [h10, if_false]
      rw [charsVal_append_digit, ih (n / 10) (by omega),
        charDigit_digitChar (n % 10) (Nat.mod_lt n (by omega))]
      omega

theorem charsVal_natChars (n : Nat) : charsVal (natChars n) = n :=
  charsVal_natCharsAux (n + 1) n (Nat.lt_succ_self n)

theorem natChars_injective {a b : Nat} (h : natChars a = natChars b) : a = b := by
  have := congrArg charsVal h
  rwa [charsVal_natChars, charsVal_natChars] at this

theorem length_aset {α : Type} (m : List (Str × α)) (k : Str) (v : α) :
    (aset m k v).length ≤ m.length + 1 := by
  induction m with
  | nil => simp [aset]
  | cons h t ih =>
    obtain ⟨k', v'⟩ := h
    by_cases hk : k' = k <;> simp [aset, hk] <;> omega

theorem length_aset_of_aget_none {α : Type} (m : List (Str × α)) (k : Str) (v : α)
    (h : aget m k = none) : (aset m k v).length = m.length + 1 := by
  induction m with
  | nil => simp [aset]
  | cons hd t ih =>
    obtain ⟨k', v'⟩ := hd
    by_cases hk : k' = k
    · simp [aget, hk] at h
    · simp only [aget, hk, if_false] at h
      simp [aset, hk, ih h]

theorem aset_eq_append_of_aget_none {α : Type} (m : List (Str × α)) (k : Str) (v : α)
    (h : aget m k = none) : aset m k v = m ++ [(k, v)] := by
  induction m with
  | nil => simp [aset]
  | cons hd t ih =>
    obtain ⟨k', v'⟩ := hd
    by_cases hk : k' = k
    · simp [aget, hk] at h
    · simp only [aget, hk, if_false] at h
      simp [aset, hk, ih h]

theorem length_adel_le {α : Type} (m : List (Str × α)) (k : Str) :
    (adel m k).length ≤ m.length := by
  induction m with
  | nil => simp [adel]
  | cons hd t ih =>
    obtain ⟨k', v'⟩ := hd
    by_cases hk : k' = k <;> simp [adel, hk] <;> omega

theorem aget_aset_self {α : Type} (m : List (Str × α)) (k : Str) (v : α) :
    aget (aset m k v) k = some v := by
  induction m with
  | nil => simp [aset, aget]
  | cons hd t ih =>
    obtain ⟨k', v'⟩ := hd
    by_cases hk : k' = k <;> simp [aset, aget, hk, ih]

theorem aget_aset_ne {α : Type} (m : List (Str × α)) (k k' : Str) (v : α)
    (h : k ≠ k') : aget (aset m k v) k' = aget m k' := by
  induction m with
  | nil => simp [aset, aget, h]
  | cons hd t ih =>
    obtain ⟨k0, v0⟩ := hd
    by_cases hk : k0 = k
    · subst hk; simp [aset, aget, h]
    · simp only [aset, hk, if_false]
      by_cases hk' : k0 = k' <;> simp [aget, hk', ih]

theorem aget_mem {α : Type} {m : List (Str × α)} {k : Str} {v : α}
    (h : aget m k = some v) : (k, v) ∈ m := by
  induction m with
  | nil => simp [aget] at h
  | cons hd t ih =>
    obtain ⟨k', v'⟩ := hd
    by_cases hk : k' = k
    · subst hk
      simp [aget] at h
      simp [h]
    · simp only [aget, hk, if_false] at h
      exact List.mem_cons_of_mem _ (ih h)

theorem aget_eq_none_of_forall_ne {α : Type} {m : List (Str × α)} {k : Str}
    (h : ∀ kv ∈ m, kv.1 ≠ k) : aget m k = none := by
  induction m with
  | nil => rfl
  | cons hd t ih =>
    obtain ⟨k', v'⟩ := hd
    have hne : k' ≠ k := h (k', v') (List.mem_cons_self _ _)
    simp only [aget, hne, if_false]
    exact ih fun kv hkv => h kv (List.mem_cons_of_mem _ hkv)

theorem mem_aset {α : Type} {m : List (Str × α)} {k : Str} {v : α} {kv : Str × α}
    (h : kv ∈ aset m k v) : kv ∈ m ∨ kv = (k, v) := by
  induction m with
  | nil => simp [aset] at h; simp [h]
  | cons hd t ih =>
    obtain ⟨k', v'⟩ := hd
    by_cases hk : k' = k
    · simp only [aset, hk, if_true] at h
      rcases List.mem_cons.mp h with h | h
      · exact Or.inr h
      · exact Or.inl (List.mem_cons_of_mem _ h)
    · simp only [aset, hk, if_false] at h
      rcases List.mem_cons.mp h with h | h
      · exact Or.inl (by simp [h])
      · rcases ih h with h | h
        · exact Or.inl (List.mem_cons_of_mem _ h)
        · exact Or.inr h

theorem mem_adel {α : Type} {m : List (Str × α)} {k : Str} {kv : Str × α}
    (h : kv ∈ adel m k) : kv ∈ m := by
  induction m with
  | nil => simp [adel] at h
  | cons hd t ih =>
    obtain ⟨k', v'⟩ := hd
    by_cases hk : k' = k
    · simp only [adel, hk, if_true] at h
      exact List.mem_cons_of_mem _ h
    · simp only [adel, hk, if_false] at h
      rcases List.mem_cons.mp h with h | h
      · simp [h]
      · exact List.mem_cons_of_mem _ (ih h)

theorem strStartsWith_append (a x : Str) : strStartsWith (a ++ x) a = true := by
  unfold strStartsWith
  exact List.isPrefixOf_iff_prefix.mpr (List.prefix_append a x)

theorem newSessionId_startsWith (agentId : Str) (clock : Nat) :
    strStartsWith (newSessionId agentId clock) agentId = true :=
  strStartsWith_append agentId ('-' :: natChars clock)

theorem newSessionId_injective_clock {agentId : Str} {c₁ c₂ : Nat}
    (h : newSessionId agentId c₁ = newSessionId agentId c₂) : c₁ = c₂ := by
  unfold newSessionId at h
  have h' := List.append_cancel_left h
  exact natChars_injective (List.tail_eq_of_cons_eq h')

/-! ### Claim C4 -/

/-- Claim C4, refuted by the code: `BaseChatSession.getHistory` ignores the
`curated` flag, so `getHistory(curated=true)` on a history produced by the
session's own `addHistory` mutator returns a turn with zero parts — a turn
the curated filter (`isValidContent`) classifies as invalid. -/
theorem getHistory_true_returns_zero_part_turn :
    BaseChatSession.getHistory
        (BaseChatSession.addHistory ⟨[]⟩ ⟨Role.user, some []⟩) true
      = [⟨Role.user, some []⟩]
    ∧ BaseProviderSession.isValidContent ⟨Role.user, some []⟩ = false :=
  ⟨rfl, rfl⟩

/-! ### Claim C5 -/

/-- Claim C5: the history-trimming routine is idempotent once under budget —
if `countTokens(history) ≤ limit` the routine leaves the history unchanged,
and in particular a second run after a first run that brought the history
under the limit changes nothing. -/
theorem trimHistory_idempotent_once_under_budget
    (tok : List Content → Nat) (maxTokens : Nat) (history : List Content) :
    (tok history ≤ maxTokens →
      BaseProviderSession.trimHistoryToTokenLimit tok maxTokens history = history)
    ∧ (tok (BaseProviderSession.trimHistoryToTokenLimit tok maxTokens history) ≤ maxTokens →
        BaseProviderSession.trimHistoryToTokenLimit tok maxTokens
            (BaseProviderSession.trimHistoryToTokenLimit tok maxTokens history)
          = BaseProviderSession.trimHistoryToTokenLimit tok maxTokens history) := by
  have base : ∀ hs, tok hs ≤ maxTokens →
      BaseProviderSession.trimHistoryToTokenLimit tok maxTokens hs = hs := by
    intro hs hle
    unfold BaseProviderSession.trimHistoryToTokenLimit
    simp [hle]
  exact ⟨base history, fun h => base _ h⟩

/-- Witness for C5 at a concrete two-turn history within a budget of 3. -/
theorem trimHistory_idempotent_witness :
    tokenByTurnCount sampleHistoryAB ≤ 3
    ∧ BaseProviderSession.trimHistoryToTokenLimit tokenByTurnCount 3 sampleHistoryAB
        = sampleHistoryAB :=
  ⟨by decide,
   (trimHistory_idempotent_once_under_budget tokenByTurnCount 3 sampleHistoryAB).1
     (by decide)⟩

/-! ### Claims C2 and C3: the stream wrapper -/

namespace BaseProviderSession

theorem wrapGo_error {ε : Type} (user : Content) (e : ε) :
    ∀ (resps : List UResp) (hist : List Content) (added : Bool) (acc : List Content),
      (wrapGo user hist added acc resps (.error e)).history
          = (if added then hist else hist ++ [user])
      ∧ (wrapGo user hist added acc resps (.error e)).err = some e := by
  intro resps
  induction resps with
  | nil => intro hist added acc; cases added <;> simp [wrapGo]
  | cons r rs ih =>
    intro hist added acc
    simp only [wrapGo]
    cases added <;> simp [ih]

theorem acc_push_content (acc content : List Content) :
    (if 0 < content.length then acc ++ content else acc) = acc ++ content := by
  by_cases hc : 0 < content.length
  · simp [hc]
  · have hce : content = [] := List.length_eq_zero.mp (Nat.le_zero.mp (Nat.not_lt.mp hc))
    simp [hce]

theorem wrapGo_done_added {ε : Type} (user : Content) :
    ∀ (resps : List UResp) (hist acc : List Content),
      (wrapGo user hist true acc resps (StreamEnd.done (ε := ε))).history
          = hist ++ acc ++ resps.flatMap (fun r => r.content)
      ∧ (∀ snapshot ∈ (wrapGo user hist true acc resps
            (StreamEnd.done (ε := ε))).midHistories, snapshot = hist)
      ∧ (wrapGo user hist true acc resps (StreamEnd.done (ε := ε))).err = none := by
  intro resps
  induction resps with
  | nil =>
    intro hist acc
    refine ⟨?_, by simp [wrapGo], by simp [wrapGo]⟩
    by_cases hacc : 0 < acc.length
    · simp [wrapGo, hacc]
    · have hce : acc = [] := List.length_eq_zero.mp (Nat.le_zero.mp (Nat.not_lt.mp hacc))
      simp [wrapGo, hce]
  | cons r rs ih =>
    intro hist acc
    simp only [wrapGo, if_true, acc_push_content]
    refine ⟨?_, ?_, (ih hist (acc ++ r.content)).2.2⟩
    · rw [(ih hist (acc ++ r.content)).1]
      simp [List.append_assoc]
    · intro snapshot hs
      rcases List.mem_cons.mp hs with hs | hs
      · exact hs
      · exact (ih hist (acc ++ r.content)).2.1 snapshot hs

end BaseProviderSession

/-- Claim C3: when the provider stream throws — whether or not any delta was
yielded first — `wrapStreamWithHistoryUpdate` commits the user's turn to the
session history before the error reaches the caller, so a retry sees the
user turn in context. -/
theorem streamError_commits_user_turn {ε : Type} (hist : List Content)
    (user : Content) (resps : List BaseProviderSession.UResp) (e : ε) :
    (BaseProviderSession.wrapStreamWithHistoryUpdate hist user resps (.error e)).history
        = hist ++ [user]
    ∧ (BaseProviderSession.wrapStreamWithHistoryUpdate hist user resps (.error e)).err
        = some e := by
  have h := BaseProviderSession.wrapGo_error user e resps hist false []
  simpa [BaseProviderSession.wrapStreamWithHistoryUpdate] using h

set_option maxRecDepth 100000 in
/-- Claim C2, refuted by the code: on the sample Ollama stream (deltas
`"He"`, `"llo"`, then a final `done` chunk) the wrapped stream completes
successfully, yet the committed history carries one model turn per yielded
delta plus the final accumulated turn — not a single complete turn. -/
theorem streamSuccess_history_not_single_turn :
    (BaseProviderSession.wrapStreamWithHistoryUpdate (ε := Unit) [] sampleUserTurn
        ollamaSampleResps .done).err = none
    ∧ (BaseProviderSession.wrapStreamWithHistoryUpdate (ε := Unit) [] sampleUserTurn
        ollamaSampleResps .done).history
      = [sampleUserTurn,
         ⟨Role.model, some [Part.text (str "He")]⟩,
         ⟨Role.model, some [Part.text (str "llo")]⟩,
         ⟨Role.model, some [Part.text (str "Hello")]⟩]
    ∧ (BaseProviderSession.wrapStreamWithHistoryUpdate (ε := Unit) [] sampleUserTurn
        ollamaSampleResps .done).history
      ≠ [sampleUserTurn, ⟨Role.model, some [Part.text (str "Hello")]⟩] := by
  refine ⟨by decide, by decide, by decide⟩

/-- Claim C2 as amended: for a stream that completes successfully after
yielding at least one response, the history seen at every yield point is the
original history plus the user turn only — the model content lands only
after the stream is fully drained — and the committed model content is the
concatenation of every yielded response's content turns, one turn per
content-bearing delta (for the Claude and Ollama adapters these are the
cumulative snapshots resp. fragments plus a final accumulated turn), not a
single merged turn. -/
theorem streamSuccess_history_after_drain {ε : Type} (hist : List Content)
    (user : Content) (resps : List BaseProviderSession.UResp) (hne : resps ≠ []) :
    (∀ snapshot ∈ (BaseProviderSession.wrapStreamWithHistoryUpdate hist user resps
        (BaseProviderSession.StreamEnd.done (ε := ε))).midHistories,
      snapshot = hist ++ [user])
    ∧ (BaseProviderSession.wrapStreamWithHistoryUpdate hist user resps
        (BaseProviderSession.StreamEnd.done (ε := ε))).history
      = hist ++ user :: resps.flatMap (fun r => r.content)
    ∧ (BaseProviderSession.wrapStreamWithHistoryUpdate hist user resps
        (BaseProviderSession.StreamEnd.done (ε := ε))).err = none := by
  match resps, hne with
  | r :: rs, _ =>
    have h := BaseProviderSession.wrapGo_done_added (ε := ε) user rs (hist ++ [user]) r.content
    unfold BaseProviderSession.wrapStreamWithHistoryUpdate
    simp only [BaseProviderSession.wrapGo, Bool.false_eq_true, if_false,
      BaseProviderSession.acc_push_content]
    simp only [List.nil_append]
    refine ⟨?_, ?_, h.2.2⟩
    · intro snapshot hs
      rcases List.mem_cons.mp hs with hs | hs
      · exact hs
      · exact h.2.1 snapshot hs
    · rw [h.1]
      simp [List.append_assoc]

set_option maxRecDepth 100000 in
/-- Witness for the amended C2 at the concrete Ollama sample stream. -/
theorem streamSuccess_history_after_drain_witness :
    (BaseProviderSession.wrapStreamWithHistoryUpdate (ε := Unit) [] sampleUserTurn
        ollamaSampleResps .done).history
      = [] ++ sampleUserTurn :: ollamaSampleResps.flatMap (fun r => r.content) :=
  (streamSuccess_history_after_drain (ε := Unit) [] sampleUserTurn ollamaSampleResps
    (by decide)).2.1

/-! ### Claim C7: the Claude SSE adapter and read boundaries -/

set_option maxRecDepth 100000 in
/-- Claim C7, refuted by the code: the Claude SSE adapter is sensitive to
read boundaries.  Delivered in one read, the sample stream yields two
events; delivered as two reads split inside the second `data:` line, the
split line is discarded (no buffering across reads) and only one event is
yielded. -/
theorem claudeStream_read_boundary_sensitive :
    sseReadA ++ sseReadB = sseText
    ∧ claudeConvertStreamToUnified [sseText]
        = [⟨[⟨Role.model, some [Part.text (str "Hel")]⟩], none, none⟩,
           ⟨[⟨Role.model, some [Part.text (str "Hello")]⟩], none, none⟩]
    ∧ claudeConvertStreamToUnified [sseReadA, sseReadB]
        = [⟨[⟨Role.model, some [Part.text (str "Hel")]⟩], none, none⟩]
    ∧ claudeConvertStreamToUnified [sseReadA, sseReadB]
        ≠ claudeConvertStreamToUnified [sseText] := by
  refine ⟨by decide, by decide, by decide, by decide⟩

/-! ### Claim C6: retry with exponential backoff -/

theorem retryAux_attempts_le {α : Type} (provider : AIProvider)
    (op : Nat → Except JsError α) (jit : Nat → ℚ) (base : ℚ) :
    ∀ (fuel attempt : Nat),
      (retryAux provider op jit base attempt fuel).attempts ≤ attempt + fuel + 1 := by
  intro fuel
  induction fuel with
  | zero =>
    intro attempt
    unfold retryAux
    cases op attempt <;> simp
  | succ f ih =>
    intro attempt
    unfold retryAux
    cases op attempt with
    | ok v => simp
    | error e =>
      by_cases hnr : nonRetryable e
      · simp [hnr]
      · simp only [hnr, Bool.false_eq_true, if_false]
        show (retryAux provider op jit base (attempt + 1) f).attempts ≤ attempt + (f + 1) + 1
        have := ih (attempt + 1)
        omega

theorem retryAux_sleeps {α : Type} (provider : AIProvider)
    (op : Nat → Except JsError α) (jit : Nat → ℚ) (base : ℚ) :
    ∀ (fuel attempt : Nat), ∃ k,
      (retryAux provider op jit base attempt fuel).sleeps
        = (List.range k).map (fun i => delayAt jit base (attempt + i)) := by
  intro fuel
  induction fuel with
  | zero =>
    intro attempt
    refine ⟨0, ?_⟩
    unfold retryAux
    cases op attempt <;> simp
  | succ f ih =>
    intro attempt
    unfold retryAux
    cases op attempt with
    | ok v => exact ⟨0, by simp⟩
    | error e =>
      by_cases hnr : nonRetryable e
      · exact ⟨0, by simp [hnr]⟩
      · simp only [hnr, Bool.false_eq_true, if_false]
        obtain ⟨k, hk⟩ := ih (attempt + 1)
        refine ⟨k + 1, ?_⟩
        show delayAt jit base attempt
            :: (retryAux provider op jit base (attempt + 1) f).sleeps
          = (List.range (k + 1)).map (fun i => delayAt jit base (attempt + i))
        rw [hk, List.range_succ_eq_map]
        simp only [List.map_cons, List.map_map, Nat.add_zero]
        congr 1
        apply List.map_congr_left
        intro i hi
        simp [Function.comp]
        congr 1 <;> omega

/-- Claim C6: `retryWithBackoff` makes at most `maxRetries + 1` attempts (3
retries by default); each sleep is exactly `baseDelayMs * 2 ^ attempt` plus
`Math.random()` times 10% of that (so strictly under 10% extra jitter); a
retryable failure followed by a success settles on that success on the
second attempt; and a `ProviderError` carrying status 401, 403 or 404 is
never retried — it fails on the first attempt with no sleep and surfaces
unchanged. -/
theorem retryWithBackoff_policy {α : Type} (provider : AIProvider)
    (op : Nat → Except JsError α) (jit : Nat → ℚ) (maxRetries : Nat) (base : ℚ) :
    (retryWithBackoff provider op jit maxRetries base).attempts ≤ maxRetries + 1
    ∧ (∃ k, (retryWithBackoff provider op jit maxRetries base).sleeps
        = (List.range k).map (fun i => delayAt jit base i))
    ∧ ((∀ n, 0 ≤ jit n ∧ jit n < 1) → 0 < base →
        ∀ s ∈ (retryWithBackoff provider op jit maxRetries base).sleeps,
          ∃ i, s = delayAt jit base i
            ∧ base * 2 ^ i ≤ s ∧ s < (11 / 10) * (base * 2 ^ i))
    ∧ (∀ (e : JsError) (v : α), op 0 = .error e → nonRetryable e = false →
        op 1 = .ok v → 1 ≤ maxRetries →
        (retryWithBackoff provider op jit maxRetries base).result = .ok v
        ∧ (retryWithBackoff provider op jit maxRetries base).attempts = 2)
    ∧ (∀ (msg : Str) (p : AIProvider) (c : Option Str) (s : Nat),
        op 0 = .error (.providerError msg p c (some s)) →
        (s = 401 ∨ s = 403 ∨ s = 404) →
        (retryWithBackoff provider op jit maxRetries base).result
            = .error (.providerError msg p c (some s))
        ∧ (retryWithBackoff provider op jit maxRetries base).attempts = 1
        ∧ (retryWithBackoff provider op jit maxRetries base).sleeps = []) := by
  refine ⟨?_, ?_, ?_, ?_, ?_⟩
  · have h := retryAux_attempts_le provider op jit base maxRetries 0
    simpa [retryWithBackoff] using h
  · have h := retryAux_sleeps provider op jit base maxRetries 0
    simpa [retryWithBackoff] using h
  · intro hjit hbase s hs
    obtain ⟨k, hk⟩ := retryAux_sleeps provider op jit base maxRetries 0
    rw [retryWithBackoff] at hs
    rw [hk] at hs
    simp only [List.mem_map, List.mem_range] at hs
    obtain ⟨i, -, rfl⟩ := hs
    refine ⟨i, by simp [delayAt], ?_, ?_⟩
    · have hd : (0 : ℚ) < base * 2 ^ i := by positivity
      have := (hjit i).1
      simp only [delayAt, Nat.zero_add]
      nlinarith
    · have hd : (0 : ℚ) < base * 2 ^ i := by positivity
      have := (hjit i).2
      simp only [delayAt, Nat.zero_add]
      nlinarith
  · intro e v h0 hnr h1 hmr
    match maxRetries, hmr with
    | k + 1, _ =>
      have key : retryAux provider op jit base 0 (k + 1)
          = ⟨.ok v, [delayAt jit base 0], 2⟩ := by
        unfold retryAux
        rw [h0]
        simp only [hnr, Bool.false_eq_true, if_false]
        cases k with
        | zero =>
          unfold retryAux
          rw [h1]
          rfl
        | succ k' =>
          unfold retryAux
          rw [h1]
          rfl
      constructor
      · show (retryAux provider op jit base 0 (k + 1)).result = .ok v
        rw [key]
      · show (retryAux provider op jit base 0 (k + 1)).attempts = 2
        rw [key]
  · intro msg p c s h0 hs
    have hnr : nonRetryable (.providerError msg p c (some s)) = true := by
      rcases hs with h | h | h <;> simp [nonRetryable, h]
    have key : retryAux provider op jit base 0 maxRetries
        = ⟨.error (.providerError msg p c (some s)), [], 1⟩ := by
      cases maxRetries with
      | zero =>
        unfold retryAux
        rw [h0]
        rfl
      | succ k =>
        unfold retryAux
        rw [h0]
        simp only [hnr, if_true]
        rfl
    refine ⟨?_, ?_, ?_⟩
    · show (retryAux provider op jit base 0 maxRetries).result = _
      rw [key]
    · show (retryAux provider op jit base 0 maxRetries).attempts = _
      rw [key]
    · show (retryAux provider op jit base 0 maxRetries).sleeps = _
      rw [key]

/-- Witness for C6: a transient failure then success settles on the success
in two attempts; a 401 fails on the first attempt. -/
theorem retryWithBackoff_policy_witness :
    (retryWithBackoff .claude opTransient zeroJit 3 1000).result = .ok 7
    ∧ (retryWithBackoff .claude opTransient zeroJit 3 1000).attempts = 2
    ∧ (retryWithBackoff .claude opAuth401 zeroJit 3 1000).result
        = .error (.providerError (str "no") .claude none (some 401))
    ∧ (retryWithBackoff .claude opAuth401 zeroJit 3 1000).attempts = 1 :=
  have h1 := (retryWithBackoff_policy .claude opTransient zeroJit 3 1000).2.2.2.1
    (.plainError (str "boom")) 7 rfl rfl rfl (by omega)
  have h2 := (retryWithBackoff_policy .claude opAuth401 zeroJit 3 1000).2.2.2.2
    (str "no") .claude none 401 rfl (Or.inl rfl)
  ⟨h1.1, h1.2, h2.1, h2.2.1⟩

/-! ### Claim C9: tool support characterization and filtering -/

theorem declName_applyProviderConfig (tool : Tool) (ov : ToolOverride) :
    (applyProviderConfig tool ov).declName = tool.declName := by
  unfold applyProviderConfig
  rcases ov with ⟨p?, d?⟩
  rcases p? with - | p <;> rcases d? with - | d <;> dsimp <;> split_ifs <;> rfl

theorem getToolName_applyProviderConfig (tool : Tool) (ov : ToolOverride) :
    getToolName (applyProviderConfig tool ov) = getToolName tool := by
  unfold getToolName
  rw [declName_applyProviderConfig]

theorem mem_getToolsForProvider {reg : Registry} {provider : AIProvider}
    {caps : ProviderCapabilities} {req? : Option (List Str)} {t : Tool}
    (ht : t ∈ getToolsForProvider reg provider caps req?) :
    ∃ kv ∈ reg.toolConfigs, ∃ tool,
      aget reg.globalTools kv.1 = some tool
      ∧ kv.2.supportedProviders.contains provider = true
      ∧ (∀ k, kv.2.requiresCapability = some k → capTruthy caps k = true)
      ∧ (t = tool ∨ ∃ ov, t = applyProviderConfig tool ov) := by
  unfold getToolsForProvider at ht
  rw [List.mem_filterMap] at ht
  obtain ⟨kv, hkv, hf⟩ := ht
  dsimp only at hf
  refine ⟨kv, hkv, ?_⟩
  split at hf
  · exact Option.noConfusion hf
  rename_i h1
  split at hf
  · exact Option.noConfusion hf
  rename_i h2
  split at hf
  · exact Option.noConfusion hf
  have hsup : kv.2.supportedProviders.contains provider = true := by
    simpa using h1
  have hcaps : ∀ k, kv.2.requiresCapability = some k → capTruthy caps k = true := by
    intro k hk
    rw [hk] at h2
    simpa using h2
  split at hf
  · exact Option.noConfusion hf
  rename_i tool hg
  split at hf
  · rename_i ov hov
    exact ⟨tool, hg, hsup, hcaps, Or.inr ⟨ov, (Option.some_inj.mp hf).symm⟩⟩
  · exact ⟨tool, hg, hsup, hcaps, Or.inl (Option.some_inj.mp hf).symm⟩

/-- Claim C9: a registered tool is supported iff the provider is in its
supported-provider set and either no capability is required or the
provider's capability flag for that key is truthy; as a consequence, a
requested tool requiring a capability the provider lacks appears in
`getUnsupportedTools` and no tool of that name appears in
`getToolsForProvider`. -/
theorem toolSupport_iff_and_filtering (reg : Registry) (provider : AIProvider)
    (caps : ProviderCapabilities) (hwf : RegistryWF reg) :
    (∀ name cfg, aget reg.toolConfigs name = some cfg →
      (isToolSupported reg name provider caps = true ↔
        (cfg.supportedProviders.contains provider = true
          ∧ (cfg.requiresCapability = none
             ∨ ∃ k, cfg.requiresCapability = some k ∧ capTruthy caps k = true))))
    ∧ (∀ name cfg k, aget reg.toolConfigs name = some cfg →
        cfg.requiresCapability = some k → capTruthy caps k = false →
        (∀ requested, name ∈ requested →
          name ∈ getUnsupportedTools reg provider caps requested)
        ∧ (∀ req' t, t ∈ getToolsForProvider reg provider caps req' →
            getToolName t ≠ name)) := by
  have char : ∀ name cfg, aget reg.toolConfigs name = some cfg →
      (isToolSupported reg name provider caps = true ↔
        (cfg.supportedProviders.contains provider = true
          ∧ (cfg.requiresCapability = none
             ∨ ∃ k, cfg.requiresCapability = some k ∧ capTruthy caps k = true))) := by
    intro name cfg h
    unfold isToolSupported
    rw [h]
    cases hcon : cfg.supportedProviders.contains provider with
    | false =>
      have hm : provider ∉ cfg.supportedProviders := by simpa using hcon
      simp [hcon, hm]
    | true =>
      have hm : provider ∈ cfg.supportedProviders := by simpa using hcon
      rcases hrc : cfg.requiresCapability with - | k
      · simp [hcon, hrc, hm]
      · simp [hcon, hrc, hm]
  refine ⟨char, ?_⟩
  intro name cfg k h hrc hcap
  have hns : isToolSupported reg name provider caps = false := by
    cases hb : isToolSupported reg name provider caps with
    | false => rfl
    | true =>
      have := (char name cfg h).mp hb
      rcases this.2 with h' | ⟨k', hk', hck'⟩
      · rw [hrc] at h'; cases h'
      · rw [hrc] at hk'
        cases hk'
        rw [hcap] at hck'
        cases hck'
  constructor
  · intro requested hmem
    unfold getUnsupportedTools
    rw [List.mem_filter]
    exact ⟨hmem, by simp [hns]⟩
  · intro req' t ht hname
    obtain ⟨kv, hkv, tl, hg, hsup, hcaps, hform⟩ := mem_getToolsForProvider ht
    have htool : getToolName t = kv.1 := by
      rcases hform with he | ⟨ov, he⟩
      · rw [he]
        exact hwf.2 (kv.1, tl) (aget_mem hg)
      · rw [he, getToolName_applyProviderConfig]
        exact hwf.2 (kv.1, tl) (aget_mem hg)
    have hk1 : kv.1 = name := by rw [← htool, hname]
    have hcfg : aget reg.toolConfigs name = some kv.2 := by
      rw [← hk1]
      exact hwf.1 kv hkv
    rw [h] at hcfg
    cases hcfg
    have := hcaps k hrc
    rw [hcap] at this
    cases this

/-- Witness for C9: `mcp_tool` requires the `supportsTools` capability,
which the Ollama capability set lacks, so it lands in
`getUnsupportedTools`. -/
theorem toolSupport_witness :
    str "mcp_tool" ∈ getUnsupportedTools regSample .ollama ollamaToolCaps [str "mcp_tool"] :=
  ((toolSupport_iff_and_filtering regSample .ollama ollamaToolCaps ⟨by decide, by decide⟩).2
    (str "mcp_tool")
    ⟨str "mcp_tool", [.gemini, .ollama], some .supportsTools, []⟩
    .supportsTools (by decide) rfl rfl).1
    [str "mcp_tool"] (by decide)

/-! ### Claims C1, C8, C10: the agent manager -/

theorem validateAgentConfig_maxSessions {env : Env} {cfg : AgentConfig} {m : Nat}
    (h : validateAgentConfig env cfg = []) (hm : cfg.maxSessions = some m) : 1 ≤ m := by
  unfold validateAgentConfig at h
  have h2 := (List.append_eq_nil.mp h).2
  rw [hm] at h2
  by_cases hlt : m < 1
  · simp [hlt] at h2
  · omega

theorem startSession_agents (cap : Nat) (st : MState) (agentId : Str) :
    (startSession cap st agentId).state.agents = st.agents := by
  unfold startSession
  dsimp only
  repeat' split
  all_goals rfl

theorem startSession_sessions_le (cap : Nat) (st : MState) (agentId : Str)
    (h : st.sessions.length ≤ cap) :
    (startSession cap st agentId).state.sessions.length ≤ cap := by
  unfold startSession
  dsimp only
  repeat' split
  all_goals try exact h
  all_goals exact le_trans (length_aset _ _ _) (by omega)

theorem endSession_agents (st : MState) (sessionId : Str) :
    (endSession st sessionId).state.agents = st.agents := by
  unfold endSession
  dsimp only
  repeat' split
  all_goals rfl

theorem endSession_sessions_le (st : MState) (sessionId : Str) :
    (endSession st sessionId).state.sessions.length ≤ st.sessions.length := by
  unfold endSession
  dsimp only
  repeat' split
  all_goals simp
  all_goals exact length_adel_le _ _

theorem foldl_endSession_agents (ids : List Str) :
    ∀ st : MState,
      (ids.foldl (fun s sid => (endSession s sid).state) st).agents = st.agents := by
  induction ids with
  | nil => intro st; rfl
  | cons i t ih =>
    intro st
    simp only [List.foldl_cons]
    rw [ih, endSession_agents]

theorem foldl_endSession_sessions_le (ids : List Str) :
    ∀ st : MState,
      (ids.foldl (fun s sid => (endSession s sid).state) st).sessions.length
        ≤ st.sessions.length := by
  induction ids with
  | nil => intro st; exact le_refl _
  | cons i t ih =>
    intro st
    simp only [List.foldl_cons]
    exact le_trans (ih _) (endSession_sessions_le st i)

theorem removeAgent_inv (env : Env) (cap : Nat) (st : MState) (agentId : Str)
    (h1 : st.sessions.length ≤ cap) (h2 : agentsValidated env st) :
    (removeAgent st agentId).state.sessions.length ≤ cap
    ∧ agentsValidated env (removeAgent st agentId).state := by
  unfold removeAgent
  dsimp only
  constructor
  · exact le_trans (foldl_endSession_sessions_le _ st) h1
  · intro kv hkv
    apply h2
    have := mem_adel (m := (List.foldl (fun s sid => (endSession s sid).state) st
      ((List.filter (fun kv => strStartsWith kv.1 agentId) st.sessions).map Prod.fst)).agents)
      hkv
    rwa [foldl_endSession_agents] at this

theorem switchToSession_inv (env : Env) (cap : Nat) (st : MState) (sessionId : Str)
    (h1 : st.sessions.length ≤ cap) (h2 : agentsValidated env st) :
    (switchToSession st sessionId).state.sessions.length ≤ cap
    ∧ agentsValidated env (switchToSession st sessionId).state := by
  unfold switchToSession
  split <;> exact ⟨h1, h2⟩

theorem shutdown_inv (env : Env) (cap : Nat) (st : MState)
    (h1 : st.sessions.length ≤ cap) :
    (shutdown st).state.sessions.length ≤ cap
    ∧ agentsValidated env (shutdown st).state := by
  unfold shutdown
  dsimp only
  refine ⟨le_trans (foldl_endSession_sessions_le _ st) h1, ?_⟩
  intro kv hkv
  simp at hkv

theorem startSession_inv (env : Env) (cap : Nat) (st : MState) (agentId : Str)
    (h1 : st.sessions.length ≤ cap) (h2 : agentsValidated env st) :
    (startSession cap st agentId).state.sessions.length ≤ cap
    ∧ agentsValidated env (startSession cap st agentId).state := by
  refine ⟨startSession_sessions_le cap st agentId h1, ?_⟩
  intro kv hkv
  apply h2
  rwa [startSession_agents] at hkv

theorem createAgent_inv (env : Env) (beh : Bool × Bool) (cap : Nat) (st : MState)
    (config : AgentConfig)
    (h1 : st.sessions.length ≤ cap) (h2 : agentsValidated env st) :
    (createAgent env beh cap st config).state.sessions.length ≤ cap
    ∧ agentsValidated env (createAgent env beh cap st config).state := by
  unfold createAgent
  dsimp only
  split
  · exact ⟨h1, h2⟩
  rename_i hval
  split
  · exact ⟨h1, h2⟩
  split
  · exact ⟨h1, h2⟩
  rename_i client cache' heq
  split
  · exact ⟨h1, h2⟩
  split
  · exact ⟨h1, h2⟩
  have hv0 : validateAgentConfig env config = [] := by
    rw [← List.length_eq_zero]
    omega
  have h2' : agentsValidated env
      { st with agents := aset st.agents config.agentId config,
                providers := aset st.providers config.agentId client,
                factoryCache := cache' } := by
    intro kv hkv
    rcases mem_aset hkv with hm | hm
    · exact h2 kv hm
    · rw [hm]
      exact hv0
  split
  · exact startSession_inv env cap _ config.agentId h1 h2'
  · exact ⟨h1, h2'⟩

theorem updateAgent_inv (env : Env) (beh : Bool × Bool) (st : MState)
    (agentId : Str) (updates : AgentPatch) (cap : Nat)
    (h1 : st.sessions.length ≤ cap) (h2 : agentsValidated env st) :
    (updateAgent env beh st agentId updates).state.sessions.length ≤ cap
    ∧ agentsValidated env (updateAgent env beh st agentId updates).state := by
  unfold updateAgent
  dsimp only
  split
  · exact ⟨h1, h2⟩
  rename_i existing hex
  split
  · exact ⟨h1, h2⟩
  rename_i hval
  have hv0 : validateAgentConfig env (mergeAgent existing updates) = [] := by
    rw [← List.length_eq_zero]
    omega
  split
  · split
    · exact ⟨h1, h2⟩
    · split
      · exact ⟨h1, h2⟩
      · refine ⟨h1, ?_⟩
        intro kv hkv
        rcases mem_aset hkv with hm | hm
        · exact h2 kv hm
        · rw [hm]
          exact hv0
  · refine ⟨h1, ?_⟩
    intro kv hkv
    rcases mem_aset hkv with hm | hm
    · exact h2 kv hm
    · rw [hm]
      exact hv0

theorem createQuickSession_inv (env : Env) (beh : Bool × Bool) (cap : Nat)
    (st : MState) (p : AIProvider) (model? name? : Option Str)
    (h1 : st.sessions.length ≤ cap) (h2 : agentsValidated env st) :
    (createQuickSession env beh cap st p model? name?).state.sessions.length ≤ cap
    ∧ agentsValidated env (createQuickSession env beh cap st p model? name?).state := by
  unfold createQuickSession
  dsimp only
  have hca := createAgent_inv env beh cap { st with clock := st.clock + 1 }
    (quickAgentConfig p (quickAgentIdOf p st.clock) model? name?) h1 h2
  split
  · exact hca
  · exact startSession_inv env cap _ _ hca.1 hca.2

theorem reach_inv {env : Env} {cap : Nat} {st : MState} (h : Reach env cap st) :
    st.sessions.length ≤ cap ∧ agentsValidated env st := by
  induction h with
  | init =>
    refine ⟨Nat.zero_le cap, ?_⟩
    intro kv hkv
    simp at hkv
  | createAgent beh config _ ih => exact createAgent_inv _ _ _ _ _ ih.1 ih.2
  | startSession agentId _ ih => exact startSession_inv _ _ _ _ ih.1 ih.2
  | endSession sessionId _ ih =>
    refine ⟨le_trans (endSession_sessions_le _ _) ih.1, ?_⟩
    intro kv hkv
    apply ih.2
    rwa [endSession_agents] at hkv
  | removeAgent agentId _ ih => exact removeAgent_inv _ _ _ _ ih.1 ih.2
  | switchToSession sessionId _ ih => exact switchToSession_inv _ _ _ _ ih.1 ih.2
  | updateAgent beh agentId updates _ ih => exact updateAgent_inv _ _ _ _ _ _ ih.1 ih.2
  | shutdown _ ih => exact shutdown_inv _ _ _ ih.1
  | createQuickSession beh p model? name? _ ih =>
    exact createQuickSession_inv _ _ _ _ _ _ _ ih.1 ih.2

/-- Claim C1: in every reachable manager state the number of live sessions
is at most `maxConcurrentSessions`; with the target agent registered, a
`startSession` call made when the global cap is reached rejects with the
concurrency-limit error, and one made when the agent's own `maxSessions`
cap is reached rejects with the per-agent limit error — in both cases
without registering a session or changing any state. -/
theorem agentManager_session_caps (env : Env) (cap : Nat) (st : MState)
    (hreach : Reach env cap st) :
    st.sessions.length ≤ cap
    ∧ (∀ agentId, (aget st.agents agentId).isSome = true →
        (aget st.providers agentId).isSome = true →
        cap ≤ st.sessions.length →
        (startSession cap st agentId).res = .error (.concurrencyLimit cap)
        ∧ (startSession cap st agentId).state = st)
    ∧ (∀ agentId agent m, aget st.agents agentId = some agent →
        (aget st.providers agentId).isSome = true →
        st.sessions.length < cap →
        agent.maxSessions = some m →
        m ≤ (st.sessions.filter fun kv => strStartsWith kv.1 agentId).length →
        (startSession cap st agentId).res = .error (.agentSessionLimit agentId m)
        ∧ (startSession cap st agentId).state = st) := by
  obtain ⟨hlen, hvalid⟩ := reach_inv hreach
  refine ⟨hlen, ?_, ?_⟩
  · intro agentId hA hP hcap
    obtain ⟨agent, hA'⟩ := Option.isSome_iff_exists.mp hA
    obtain ⟨prov, hP'⟩ := Option.isSome_iff_exists.mp hP
    unfold startSession
    rw [hA', hP']
    dsimp only
    rw [if_pos hcap]
    exact ⟨rfl, rfl⟩
  · intro agentId agent m hA hP hlt hm hcount
    obtain ⟨prov, hP'⟩ := Option.isSome_iff_exists.mp hP
    have hm1 : 1 ≤ m := validateAgentConfig_maxSessions (hvalid (agentId, agent) (aget_mem hA)) hm
    unfold startSession
    rw [hA, hP']
    dsimp only
    rw [if_neg (by omega)]
    have hhit : (match agent.maxSessions with
        | some m => decide (m ≠ 0) && decide
            ((List.filter (fun kv => strStartsWith kv.1 agentId) st.sessions).length ≥ m)
        | none => false) = true := by
      rw [hm]
      simp only [Bool.and_eq_true, decide_eq_true_eq]
      exact ⟨by omega, by omega⟩
    rw [if_pos hhit, hm]
    exact ⟨rfl, rfl⟩

/-- Witness for C1: with a global cap of one and one session running, a
second `startSession` rejects with the concurrency-limit error; with agent
`b` capped at one session and one running, a second `startSession` rejects
with the per-agent limit error. -/
theorem agentManager_session_caps_witness :
    (startSession 1 capOneFull (str "a")).res = .error (.concurrencyLimit 1)
    ∧ (startSession 5 agentCapFull (str "b")).res
        = .error (.agentSessionLimit (str "b") 1) :=
  have hr1 : Reach envEmpty 1 capOneFull :=
    Reach.startSession (str "a") (Reach.createAgent (true, true) agentConfigA Reach.init)
  have hr2 : Reach envEmpty 5 agentCapFull :=
    Reach.startSession (str "b") (Reach.createAgent (true, true) agentConfigB Reach.init)
  ⟨((agentManager_session_caps envEmpty 1 capOneFull hr1).2.1 (str "a")
      (by decide) (by decide) (by decide)).1,
   ((agentManager_session_caps envEmpty 5 agentCapFull hr2).2.2 (str "b")
      agentConfigB 1 (by decide) (by decide) (by decide) (by decide) (by decide)).1⟩

/-- Claim C8 as amended: invoking a provider adapter constructor on a
config with `enabled: false` always throws before anything else happens;
and `createAgent` with such a nested config rejects with no external calls
and no state change, provided no adapter is already cached under the same
`(provider, model, authType, apiKey, endpoint)` key — a cache hit returns
the previously built adapter and `createAgent` proceeds to its connection
test (see the counterexample). -/
theorem disabledConfig_construction (env : Env) (beh : Bool × Bool) (cap : Nat)
    (st : MState) (config : AgentConfig) :
    (∀ pcfg : ProviderConfig, pcfg.enabled = false →
      mkClient env beh pcfg
        = .error (.providerError (str "Provider is disabled") pcfg.provider none none))
    ∧ (config.providerConfig.enabled = false →
        aget st.factoryCache (cacheKey config.providerConfig) = none →
        (createAgent env beh cap st config).res.isOk = false
        ∧ (createAgent env beh cap st config).net = []
        ∧ (createAgent env beh cap st config).state = st) := by
  have hmk : ∀ pcfg : ProviderConfig, pcfg.enabled = false →
      mkClient env beh pcfg
        = .error (.providerError (str "Provider is disabled") pcfg.provider none none) := by
    intro pcfg hd
    unfold mkClient
    rw [hd]
    rfl
  refine ⟨hmk, ?_⟩
  intro hd hc
  have hcc : createClient env beh st.factoryCache config.providerConfig
      = (.error (.providerError (str "Provider is disabled")
          config.providerConfig.provider none none), st.factoryCache) := by
    unfold createClient
    dsimp only
    rw [hc, hmk config.providerConfig hd]
  unfold createAgent
  dsimp only
  rw [hcc]
  split
  · exact ⟨rfl, rfl, rfl⟩
  split
  · exact ⟨rfl, rfl, rfl⟩
  · exact ⟨rfl, rfl, rfl⟩

set_option maxRecDepth 1000000 in
/-- Claim C8, refuted by the code on the cache-hit path: after agent `a`
populates the factory cache with an adapter for the Ollama config, creating
agent `a2` over the identical config with `enabled: false` does not reject —
the cache key omits `enabled`, the cached adapter is returned, the agent is
registered and the connection test (a network call) runs. -/
theorem disabledConfig_cacheHit_counterexample :
    disabledOllamaConfig.enabled = false
    ∧ (createAgent envEmpty (true, true) 5 cachedClientState agentConfigDisabled).res
        = .ok (str "a2")
    ∧ (createAgent envEmpty (true, true) 5 cachedClientState agentConfigDisabled).net
        = [.validateConfigCall .ollama, .testConnectionCall .ollama] := by
  refine ⟨rfl, by rfl, by decide⟩

/-- Witness for the amended C8 at the concrete disabled Ollama config with
an empty factory cache. -/
theorem disabledConfig_construction_witness :
    (createAgent envEmpty (true, true) 5 {} agentConfigDisabled).res.isOk = false
    ∧ (createAgent envEmpty (true, true) 5 {} agentConfigDisabled).net = [] :=
  have h := (disabledConfig_construction envEmpty (true, true) 5 {} agentConfigDisabled).2
    rfl rfl
  ⟨h.1, h.2.1⟩

theorem startSession_success (cap : Nat) (st : MState) (agentId : Str)
    (agent : AgentConfig) (client : ProviderClient)
    (hA : aget st.agents agentId = some agent)
    (hP : aget st.providers agentId = some client)
    (hcap : st.sessions.length < cap)
    (hms : agent.maxSessions = none) :
    (startSession cap st agentId).res = .ok (newSessionId agentId st.clock)
    ∧ (startSession cap st agentId).state.sessions
        = aset st.sessions (newSessionId agentId st.clock)
            ⟨newSessionId agentId st.clock, agent.provider,
             sessionHistoryOf agent, sessionToolsOf agent⟩
    ∧ (startSession cap st agentId).state.agents = st.agents
    ∧ (startSession cap st agentId).state.providers = st.providers
    ∧ (startSession cap st agentId).state.clock = st.clock + 1 := by
  unfold startSession
  rw [hA, hP]
  dsimp only
  rw [if_neg (by omega), hms]
  exact ⟨rfl, rfl, rfl, rfl, rfl⟩

theorem createAgent_success_autoStart (env : Env) (beh : Bool × Bool) (cap : Nat)
    (st : MState) (config : AgentConfig) (client : ProviderClient)
    (cache' : List (Str × ProviderClient))
    (hv : validateAgentConfig env config = [])
    (hdup : aget st.agents config.agentId = none)
    (hcc : createClient env beh st.factoryCache config.providerConfig
      = (.ok client, cache'))
    (hvo : client.validateOk = true)
    (hto : client.testOk = true)
    (hauto : config.autoStart = true) :
    createAgent env beh cap st config
      = ⟨(startSession cap
            { st with agents := aset st.agents config.agentId config,
                      providers := aset st.providers config.agentId client,
                      factoryCache := cache' } config.agentId).res.map
            (fun _ => config.agentId),
         (startSession cap
            { st with agents := aset st.agents config.agentId config,
                      providers := aset st.providers config.agentId client,
                      factoryCache := cache' } config.agentId).state,
         [.validateConfigCall client.provider, .testConnectionCall client.provider]
           ++ (startSession cap
            { st with agents := aset st.agents config.agentId config,
                      providers := aset st.providers config.agentId client,
                      factoryCache := cache' } config.agentId).net⟩ := by
  unfold createAgent
  dsimp only
  rw [hv, hdup, hcc]
  dsimp only
  rw [hvo, hto, hauto]
  rfl

/-- Claim C10: `createQuickSession` synthesizes a throwaway agent with
`autoStart: true`; `createAgent` therefore already starts one session before
`createQuickSession` calls `startSession` again, so a successful call (caps
permitting two sessions, fresh ids) leaves two live sessions registered for
the new agent and returns the id of the second one. -/
theorem createQuickSession_two_sessions (env : Env) (beh : Bool × Bool)
    (cap : Nat) (st : MState) (p : AIProvider) (model? name? : Option Str)
    (client : ProviderClient) (cache' : List (Str × ProviderClient))
    (hv : validateAgentConfig env
      (quickAgentConfig p (quickAgentIdOf p st.clock) model? name?) = [])
    (hdup : aget st.agents (quickAgentIdOf p st.clock) = none)
    (hcc : createClient env beh st.factoryCache
        (quickAgentConfig p (quickAgentIdOf p st.clock) model? name?).providerConfig
      = (.ok client, cache'))
    (hvo : client.validateOk = true)
    (hto : client.testOk = true)
    (hcap : st.sessions.length + 2 ≤ cap)
    (hfresh : ∀ kv ∈ st.sessions,
      strStartsWith kv.1 (quickAgentIdOf p st.clock) = false) :
    (createQuickSession env beh cap st p model? name?).res
        = .ok (newSessionId (quickAgentIdOf p st.clock) (st.clock + 2))
    ∧ ((createQuickSession env beh cap st p model? name?).state.sessions.filter
        (fun kv => strStartsWith kv.1 (quickAgentIdOf p st.clock))).length = 2 := by
  -- the two freshly minted session ids, and their freshness facts
  have fne : ∀ c : Nat, aget st.sessions
      (newSessionId (quickAgentIdOf p st.clock) c) = none := by
    intro c
    apply aget_eq_none_of_forall_ne
    intro kv hkv he
    have h1 := hfresh kv hkv
    rw [he, newSessionId_startsWith] at h1
    exact Bool.noConfusion h1
  -- step 1: `createAgent` on the synthesized config succeeds and auto-starts
  have hA := createAgent_success_autoStart env beh cap { st with clock := st.clock + 1 }
    (quickAgentConfig p (quickAgentIdOf p st.clock) model? name?) client cache'
    hv hdup hcc hvo hto rfl
  -- the state in which the auto-start session is created
  have hS1 := startSession_success cap
    { ({ st with clock := st.clock + 1 } : MState) with
        agents := aset ({ st with clock := st.clock + 1 } : MState).agents
          (quickAgentConfig p (quickAgentIdOf p st.clock) model? name?).agentId
          (quickAgentConfig p (quickAgentIdOf p st.clock) model? name?),
        providers := aset ({ st with clock := st.clock + 1 } : MState).providers
          (quickAgentConfig p (quickAgentIdOf p st.clock) model? name?).agentId client,
        factoryCache := cache' }
    (quickAgentConfig p (quickAgentIdOf p st.clock) model? name?).agentId
    (quickAgentConfig p (quickAgentIdOf p st.clock) model? name?) client
    (aget_aset_self _ _ _) (aget_aset_self _ _ _)
    (show st.sessions.length < cap by omega) rfl
  -- the result of `createAgent` projected
  have hRres : (createAgent env beh cap { st with clock := st.clock + 1 }
      (quickAgentConfig p (quickAgentIdOf p st.clock) model? name?)).res
      = .ok (quickAgentConfig p (quickAgentIdOf p st.clock) model? name?).agentId := by
    rw [hA]
    show (_ : Except MErr Str).map _ = _
    rw [hS1.1]
    rfl
  -- unfold the quick-session wrapper using the settled `createAgent` result
  have hfinal : createQuickSession env beh cap st p model? name?
      = ⟨(startSession cap (createAgent env beh cap { st with clock := st.clock + 1 }
            (quickAgentConfig p (quickAgentIdOf p st.clock) model? name?)).state
            (quickAgentIdOf p st.clock)).res,
         (startSession cap (createAgent env beh cap { st with clock := st.clock + 1 }
            (quickAgentConfig p (quickAgentIdOf p st.clock) model? name?)).state
            (quickAgentIdOf p st.clock)).state,
         (createAgent env beh cap { st with clock := st.clock + 1 }
            (quickAgentConfig p (quickAgentIdOf p st.clock) model? name?)).net
           ++ (startSession cap (createAgent env beh cap { st with clock := st.clock + 1 }
            (quickAgentConfig p (quickAgentIdOf p st.clock) model? name?)).state
            (quickAgentIdOf p st.clock)).net⟩ := by
    unfold createQuickSession
    dsimp only
    rw [hRres]
  -- facts about the state after `createAgent`
  have hag2 : aget (createAgent env beh cap { st with clock := st.clock + 1 }
      (quickAgentConfig p (quickAgentIdOf p st.clock) model? name?)).state.agents
      (quickAgentIdOf p st.clock)
      = some (quickAgentConfig p (quickAgentIdOf p st.clock) model? name?) := by
    rw [hA]
    show aget _ (quickAgentIdOf p st.clock) = _
    rw [hS1.2.2.1]
    exact aget_aset_self _ _ _
  have hpr2 : aget (createAgent env beh cap { st with clock := st.clock + 1 }
      (quickAgentConfig p (quickAgentIdOf p st.clock) model? name?)).state.providers
      (quickAgentIdOf p st.clock) = some client := by
    rw [hA]
    show aget _ (quickAgentIdOf p st.clock) = _
    rw [hS1.2.2.2.1]
    exact aget_aset_self _ _ _
  have hsess2 : (createAgent env beh cap { st with clock := st.clock + 1 }
      (quickAgentConfig p (quickAgentIdOf p st.clock) model? name?)).state.sessions
      = aset st.sessions (newSessionId (quickAgentIdOf p st.clock) (st.clock + 1))
          ⟨newSessionId (quickAgentIdOf p st.clock) (st.clock + 1),
           (quickAgentConfig p (quickAgentIdOf p st.clock) model? name?).provider,
           sessionHistoryOf (quickAgentConfig p (quickAgentIdOf p st.clock) model? name?),
           sessionToolsOf (quickAgentConfig p (quickAgentIdOf p st.clock) model? name?)⟩ := by
    rw [hA]
    exact hS1.2.1
  have hclk2 : (createAgent env beh cap { st with clock := st.clock + 1 }
      (quickAgentConfig p (quickAgentIdOf p st.clock) model? name?)).state.clock
      = st.clock + 2 := by
    rw [hA]
    exact hS1.2.2.2.2
  have hlen2 : (createAgent env beh cap { st with clock := st.clock + 1 }
      (quickAgentConfig p (quickAgentIdOf p st.clock) model? name?)).state.sessions.length
      < cap := by
    rw [hsess2, length_aset_of_aget_none _ _ _ (fne (st.clock + 1))]
    omega
  -- step 2: the second `startSession`
  have hS2 := startSession_success cap
    (createAgent env beh cap { st with clock := st.clock + 1 }
      (quickAgentConfig p (quickAgentIdOf p st.clock) model? name?)).state
    (quickAgentIdOf p st.clock)
    (quickAgentConfig p (quickAgentIdOf p st.clock) model? name?) client
    hag2 hpr2 hlen2 rfl
  constructor
  · rw [hfinal]
    show (startSession cap _ _).res = _
    rw [hS2.1, hclk2]
  · rw [hfinal]
    show ((startSession cap _ _).state.sessions.filter _).length = 2
    rw [hS2.2.1, hclk2, hsess2]
    rw [aset_eq_append_of_aget_none _ _ _ (fne (st.clock + 1))]
    have fne2 : aget (st.sessions ++ [(newSessionId (quickAgentIdOf p st.clock) (st.clock + 1),
          (⟨newSessionId (quickAgentIdOf p st.clock) (st.clock + 1),
           (quickAgentConfig p (quickAgentIdOf p st.clock) model? name?).provider,
           sessionHistoryOf (quickAgentConfig p (quickAgentIdOf p st.clock) model? name?),
           sessionToolsOf (quickAgentConfig p (quickAgentIdOf p st.clock) model? name?)⟩ : Session))])
        (newSessionId (quickAgentIdOf p st.clock) (st.clock + 2)) = none := by
      apply aget_eq_none_of_forall_ne
      intro kv hkv
      rcases List.mem_append.mp hkv with hm | hm
      · intro he
        have h1 := hfresh kv hm
        rw [he, newSessionId_startsWith] at h1
        exact Bool.noConfusion h1
      · simp only [List.mem_singleton] at hm
        rw [hm]
        intro he
        have := newSessionId_injective_clock he
        omega
    rw [aset_eq_append_of_aget_none _ _ _ fne2]
    rw [List.filter_append, List.filter_append]
    rw [List.filter_eq_nil_iff.mpr (by
      intro kv hkv
      rw [hfresh kv hkv]
      exact Bool.noConfusion)]
    simp only [List.filter_cons, List.filter_nil, newSessionId_startsWith, if_true,
      List.nil_append, List.length_append, List.length_cons, List.length_nil]

/-- Witness for the quick-session theorem at a fresh manager (cap 2),
Gemini provider, empty environment-supplied model and name. -/
theorem createQuickSession_two_sessions_witness :
    (createQuickSession envGemini (true, true) 2 {} .gemini none none).res
        = .ok (newSessionId (quickAgentIdOf .gemini 0) 2)
    ∧ ((createQuickSession envGemini (true, true) 2 {} .gemini none none).state.sessions.filter
        (fun kv => strStartsWith kv.1 (quickAgentIdOf .gemini 0))).length = 2 :=
  createQuickSession_two_sessions envGemini (true, true) 2 {} .gemini none none
    ⟨.gemini, (quickAgentConfig .gemini (quickAgentIdOf .gemini 0) none none).providerConfig,
      true, true⟩
    [(cacheKey (quickAgentConfig .gemini (quickAgentIdOf .gemini 0) none none).providerConfig,
      ⟨.gemini, (quickAgentConfig .gemini (quickAgentIdOf .gemini 0) none none).providerConfig,
        true, true⟩)]
    (by decide) rfl rfl rfl rfl (by decide)
    (fun kv hkv => absurd hkv (List.not_mem_nil kv))


end GeminiCli
